import Mathlib

/-!
# The in-process message bus of `pkg/bus/bus.go`

A shallow embedding of the bus and of the part of Go's `reflect` package it
relies on.

* A Go type is a term of `GoType`; `GoType.Name`, `GoType.Elem`, `GoType.In`
  and `GoType.AssignableTo` follow the documented behaviour of `reflect.Type`,
  a run-time panic being an `Except.error`.
* A value boxed in an `interface{}` is a dynamic type with its contents; the
  nil interface is `none`.
* A handler is an arbitrary boxed value.  When it is a function it has an
  identity and a body; the body maps the arguments it receives to the results
  it returns, or panics.
* Every bus operation returns a `Step`: the routing table after the call, the
  handler invocations the call made, in order, and either the returned value
  or the panic that ended the call.

The body of a handler is a function of its arguments only.  What a handler does
besides returning (writes to other state, calls back into the bus) is outside
the model, and so is a handler that does not return.
-/

namespace Bus

/-! ## Go types -/

/-- Go types, as far as `reflect` can tell them apart. -/
inductive GoType where
  /-- predeclared type such as `int` or `string` -/
  | basic (name : String)
  /-- defined type `type name underlying` of package `pkgPath`, with the
  methods declared on value receivers and on pointer receivers -/
  | named (pkgPath name : String) (methods ptrMethods : List String) (underlying : GoType)
  | pointer (elem : GoType)
  | slice (elem : GoType)
  | array (len : Nat) (elem : GoType)
  | chan (elem : GoType)
  | map (key elem : GoType)
  | struct (fieldNames : List String) (fieldTypes : List GoType)
  | func (ins outs : List GoType) (variadic : Bool)
  | interface (methods : List String)

namespace GoType

mutual
/-- Type identity: the same type term. -/
def identical : GoType → GoType → Bool
  | basic a, t => match t with
    | basic b => a == b
    | _ => false
  | named p n m q u, t => match t with
    | named p' n' m' q' u' => p == p' && n == n' && m == m' && q == q' && identical u u'
    | _ => false
  | pointer a, t => match t with
    | pointer b => identical a b
    | _ => false
  | slice a, t => match t with
    | slice b => identical a b
    | _ => false
  | array k a, t => match t with
    | array l b => k == l && identical a b
    | _ => false
  | chan a, t => match t with
    | chan b => identical a b
    | _ => false
  | map k a, t => match t with
    | map l b => identical k l && identical a b
    | _ => false
  | struct ns ts, t => match t with
    | struct ns' ts' => ns == ns' && identicalList ts ts'
    | _ => false
  | func i o v, t => match t with
    | func i' o' v' => identicalList i i' && identicalList o o' && v == v'
    | _ => false
  | interface m, t => match t with
    | interface m' => m == m'
    | _ => false
/-- Pointwise type identity of two parameter lists. -/
def identicalList : List GoType → List GoType → Bool
  | [], [] => true
  | a :: as, b :: bs => identical a b && identicalList as bs
  | _, _ => false
end

/-- The method `Name` of `reflect.Type`: the name of a defined (or predeclared) type, the
empty string for every other type. -/
def Name : GoType → String
  | basic n => n
  | named _ n _ _ _ => n
  | _ => ""

/-- The method `PkgPath` of `reflect.Type`. -/
def PkgPath : GoType → String
  | named p _ _ _ _ => p
  | _ => ""

/-- The underlying type. -/
def underlyingType : GoType → GoType
  | named _ _ _ _ u => underlyingType u
  | t => t

/-- Whether the type is a defined or predeclared one. -/
def hasName : GoType → Bool
  | basic _ => true
  | named _ _ _ _ _ => true
  | _ => false

/-- The method `Elem` of `reflect.Type`: the element type of an array, channel, map, pointer
or slice; `none` stands for the panic on any other kind. -/
def Elem : GoType → Option GoType
  | pointer e => some e
  | slice e => some e
  | array _ e => some e
  | chan e => some e
  | map _ e => some e
  | named _ _ _ _ u => Elem u
  | _ => none

/-- Parameter types, result types and variadic flag of a type of kind `Func`. -/
def signature : GoType → Option (List GoType × List GoType × Bool)
  | func i o v => some (i, o, v)
  | named _ _ _ _ u => signature u
  | _ => none

/-- The methods an interface type asks for; `none` when the kind is not `Interface`. -/
def interfaceMethods : GoType → Option (List String)
  | interface ms => some ms
  | named _ _ _ _ u => interfaceMethods u
  | _ => none

/-- The method set of a type. -/
def methodSet : GoType → List String
  | interface ms => ms
  | named _ _ ms _ u => (interfaceMethods u).getD ms
  | pointer (named _ _ ms pms u) =>
    match interfaceMethods u with
    | some _ => []
    | none => ms ++ pms
  | _ => []

/-- Whether values of type `v` implement the interface type `t`. -/
def implements (t v : GoType) : Bool :=
  match interfaceMethods t with
  | some ms => ms.all fun m => (methodSet v).contains m
  | none => false

/-- Assignability without conversion to an interface: identical types, or identical
underlying types when at most one of the two is a defined type. -/
def directlyAssignable (t v : GoType) : Bool :=
  identical t v || (!(hasName t && hasName v) && identical (underlyingType t) (underlyingType v))

/-- The method `AssignableTo` of `reflect.Type`: whether a value of type `v` may be assigned
to a variable of type `t`. -/
def AssignableTo (v t : GoType) : Bool :=
  directlyAssignable t v || implements t v

end GoType

/-- The predeclared interface type `error`. -/
def errorType : GoType :=
  .named "" "error" [] [] (.interface ["Error() string"])

/-! ## Values, panics and handlers -/

/-- A non-nil value boxed in an interface: its dynamic type and its contents (for a pointer
the address it holds). -/
structure Value where
  typ : GoType
  data : Nat

/-- A message `Msg` is an `interface{}`: `none` is the nil interface. -/
abbrev Msg := Option Value

/-- An `error`: `none` is nil. -/
abbrev GoError := Option Value

/-- The run-time panics the bus can end in. -/
inductive Panic where
  /-- method call on the nil `reflect.Type` that `reflect.TypeOf(nil)` returns -/
  | nilType
  /-- the call `Elem` on a type that is no array, channel, map, pointer or slice -/
  | elemOfInvalidType
  /-- the call `In` on a type that is not a function type -/
  | inOfNonFunc
  /-- the call `In(i)` with `i` out of range -/
  | inOutOfRange
  /-- the call `Call` on a value that is not a function (the zero `reflect.Value` included) -/
  | callOfNonFunc
  /-- the call `Call` on a nil function -/
  | callOfNilFunc
  /-- the call `Call` with fewer arguments than parameters -/
  | callTooFewArguments
  /-- the call `Call` with more arguments than parameters -/
  | callTooManyArguments
  /-- the call `Call` with the zero `reflect.Value` as argument -/
  | callZeroValueArgument
  /-- the call `Call` with an argument that is not assignable to its parameter -/
  | callArgumentType
  /-- the index `ret[0]` into an empty result slice -/
  | indexOutOfRange
  /-- the assertion `err.(error)` on a value whose type does not implement `error` -/
  | typeAssertion
  /-- panic raised by the body of a handler -/
  | inHandler (code : Nat)
  deriving DecidableEq, Repr

/-- What the body of a function does on given arguments: it returns its results, each as
`Interface()` shows it (`none` for a nil interface result), or it panics. -/
inductive Returned where
  | results (rs : List (Option Value))
  | panics (code : Nat)

/-- A non-nil value passed as `HandlerFunc`: its dynamic type, its identity, and its body
when it is a non-nil function. -/
structure Handler where
  typ : GoType
  id : Nat
  body : Option (List Value → Returned)

/-- The type `HandlerFunc` is `interface{}`: `none` is the nil interface. -/
abbrev HandlerFunc := Option Handler

/-- One invocation of a handler body: which function, with which arguments. -/
structure Invocation where
  fn : Nat
  args : List Value

/-! ## The part of `reflect` the bus uses -/

namespace reflect

/-- The function `reflect.TypeOf`: the dynamic type, `none` (the nil `Type`) for a nil interface. -/
def TypeOf (v : Option Value) : Option GoType := v.map Value.typ

/-- The function `reflect.TypeOf` on a handler. -/
def TypeOfHandler (h : HandlerFunc) : Option GoType := h.map Handler.typ

/-- The function `reflect.ValueOf`: `none` is the zero `reflect.Value`. -/
def ValueOf (v : Option Value) : Option Value := v

/-- The call `t.Elem()` on the result of `TypeOf`. -/
def Elem (t : Option GoType) : Except Panic GoType :=
  match t with
  | none => .error .nilType
  | some t =>
    match t.Elem with
    | none => .error .elemOfInvalidType
    | some e => .ok e

/-- The call `t.In(i)` on the result of `TypeOf`. -/
def In (t : Option GoType) (i : Nat) : Except Panic GoType :=
  match t with
  | none => .error .nilType
  | some t =>
    match t.signature with
    | none => .error .inOfNonFunc
    | some (ins, _, _) =>
      match ins[i]? with
      | none => .error .inOutOfRange
      | some p => .ok p

/-- All arguments present, or `none` if one of them is the zero `reflect.Value`. -/
def validArgs : List (Option Value) → Option (List Value)
  | [] => some []
  | none :: _ => none
  | some v :: rest => (validArgs rest).map (v :: ·)

/-- Each of the leading arguments is assignable to the parameter at its position. -/
def fixedAssignable : List Value → List GoType → Bool
  | _, [] => true
  | [], _ :: _ => false
  | a :: as, p :: ps => a.typ.AssignableTo p && fixedAssignable as ps

/-- The method `Call` of `reflect.Value`, applied to `reflect.ValueOf(handler)`: the checks it makes
before the call, then the call of the body.  It yields the invocations made (none or one)
and the results, each already seen through `Interface()`. -/
def Call (handler : HandlerFunc) (params : List (Option Value)) :
    List Invocation × Except Panic (List (Option Value)) :=
  match handler with
  | none => ([], .error .callOfNonFunc)
  | some h =>
    match h.typ.signature with
    | none => ([], .error .callOfNonFunc)
    | some (ins, _, variadic) =>
      match h.body with
      | none => ([], .error .callOfNilFunc)
      | some body =>
        let n := if variadic then ins.length - 1 else ins.length
        if params.length < n then ([], .error .callTooFewArguments)
        else if !variadic && params.length > n then ([], .error .callTooManyArguments)
        else
          match validArgs params with
          | none => ([], .error .callZeroValueArgument)
          | some args =>
            if !fixedAssignable (args.take n) (ins.take n) then ([], .error .callArgumentType)
            else if variadic &&
                !(args.drop n).all (fun a =>
                  match ins[n]?.bind GoType.Elem with
                  | some e => a.typ.AssignableTo e
                  | none => false) then
              ([], .error .callArgumentType)
            else
              match body args with
              | .panics c => ([⟨h.id, args⟩], .error (.inHandler c))
              | .results rs => ([⟨h.id, args⟩], .ok rs)

end reflect

/-! ## The bus -/

/-- A Go `map[string]V`: `none` where the key has no entry. -/
abbrev GoMap (V : Type) := String → Option V

/-- The assignment `m[k] = v`. -/
def GoMap.set {V : Type} (m : GoMap V) (k : String) (v : V) : GoMap V :=
  fun k' => if k' = k then some v else m k'

/-- The empty map of `make`. -/
def GoMap.empty {V : Type} : GoMap V := fun _ => none

/-- The routing table. -/
structure InProcBus where
  handlers : GoMap HandlerFunc
  listeners : GoMap (List HandlerFunc)
  wildcardListeners : List HandlerFunc

/-- The error `ErrHandlerNotFound` made by `errors.New("handler not found")`: a pointer to an
`errors.errorString`, told from every other error by its address. -/
def ErrHandlerNotFound : Value :=
  { typ := .pointer (.named "errors" "errorString" [] ["Error() string"]
      (.struct ["s"] [.basic "string"])),
    data := 0 }

/-- The outcome of one call on the bus: the routing table after it, the handler invocations
it made, in order, and what it returned or the panic that ended it. -/
structure Step (α : Type) where
  bus : InProcBus
  calls : List Invocation
  result : Except Panic α

/-- The constructor `New`: three empty tables. -/
def New : InProcBus :=
  { handlers := GoMap.empty, listeners := GoMap.empty, wildcardListeners := [] }

/-- The routing key of a message: `reflect.TypeOf(msg).Elem().Name()`. -/
def msgName (msg : Msg) : Except Panic String :=
  (reflect.Elem (reflect.TypeOf msg)).map GoType.Name

/-- The routing key of a handler: `reflect.TypeOf(handler).In(i).Elem().Name()`. -/
def handlerKey (handler : HandlerFunc) (i : Nat) : Except Panic String :=
  match reflect.In (reflect.TypeOfHandler handler) i with
  | .error p => .error p
  | .ok t => (reflect.Elem (some t)).map GoType.Name

/-- The tail shared by the dispatchers: `err := ret[0].Interface()`, then nil if `err` is
nil and `err.(error)` otherwise. -/
def firstAsError (ret : List (Option Value)) : Except Panic GoError :=
  match ret with
  | [] => .error .indexOutOfRange
  | none :: _ => .ok none
  | some e :: _ => if GoType.implements errorType e.typ then .ok (some e) else .error .typeAssertion

namespace InProcBus

/-- The method `DispatchCtx`. -/
def DispatchCtx (b : InProcBus) (ctx : Option Value) (msg : Msg) : Step GoError :=
  match msgName msg with
  | .error p => ⟨b, [], .error p⟩
  | .ok name =>
    match (b.handlers name).getD none with
    | none => ⟨b, [], .ok (some ErrHandlerNotFound)⟩
    | some h =>
      let params := [reflect.ValueOf ctx, reflect.ValueOf msg]
      match reflect.Call (some h) params with
      | (calls, .error p) => ⟨b, calls, .error p⟩
      | (calls, .ok ret) => ⟨b, calls, firstAsError ret⟩

/-- The method `Dispatch`. -/
def Dispatch (b : InProcBus) (msg : Msg) : Step GoError :=
  match msgName msg with
  | .error p => ⟨b, [], .error p⟩
  | .ok name =>
    match (b.handlers name).getD none with
    | none => ⟨b, [], .ok (some ErrHandlerNotFound)⟩
    | some h =>
      let params := [reflect.ValueOf msg]
      match reflect.Call (some h) params with
      | (calls, .error p) => ⟨b, calls, .error p⟩
      | (calls, .ok ret) => ⟨b, calls, firstAsError ret⟩

/-- One of the two loops of `Publish`: call the listeners in order; stop with `some` result at
the first one whose call panics or whose first result is not nil, and yield `none` when the
loop runs to its end. -/
def callListeners (params : List (Option Value)) :
    List HandlerFunc → List Invocation × Option (Except Panic GoError)
  | [] => ([], none)
  | listenerHandler :: rest =>
    match reflect.Call listenerHandler params with
    | (calls, .error p) => (calls, some (.error p))
    | (calls, .ok ret) =>
      match firstAsError ret with
      | .error p => (calls, some (.error p))
      | .ok (some e) => (calls, some (.ok (some e)))
      | .ok none =>
        let (more, r) := callListeners params rest
        (calls ++ more, r)

/-- The method `Publish`. -/
def Publish (b : InProcBus) (msg : Msg) : Step GoError :=
  match msgName msg with
  | .error p => ⟨b, [], .error p⟩
  | .ok name =>
    let listeners := (b.listeners name).getD []
    let params := [reflect.ValueOf msg]
    match callListeners params listeners with
    | (calls, some r) => ⟨b, calls, r⟩
    | (calls, none) =>
      match callListeners params b.wildcardListeners with
      | (more, some r) => ⟨b, calls ++ more, r⟩
      | (more, none) => ⟨b, calls ++ more, .ok none⟩

/-- The method `AddWildcardListener`. -/
def AddWildcardListener (b : InProcBus) (handler : HandlerFunc) : Step Unit :=
  ⟨{ b with wildcardListeners := b.wildcardListeners ++ [handler] }, [], .ok ()⟩

/-- The method `AddHandler`. -/
def AddHandler (b : InProcBus) (handler : HandlerFunc) : Step Unit :=
  match handlerKey handler 0 with
  | .error p => ⟨b, [], .error p⟩
  | .ok queryTypeName => ⟨{ b with handlers := b.handlers.set queryTypeName handler }, [], .ok ()⟩

/-- The method `AddCtxHandler`. -/
def AddCtxHandler (b : InProcBus) (handler : HandlerFunc) : Step Unit :=
  match handlerKey handler 1 with
  | .error p => ⟨b, [], .error p⟩
  | .ok queryTypeName => ⟨{ b with handlers := b.handlers.set queryTypeName handler }, [], .ok ()⟩

/-- The method `AddEventListener`. -/
def AddEventListener (b : InProcBus) (handler : HandlerFunc) : Step Unit :=
  match handlerKey handler 0 with
  | .error p => ⟨b, [], .error p⟩
  | .ok eventName =>
    let b1 : InProcBus :=
      match b.listeners eventName with
      | some _ => b
      | none => { b with listeners := b.listeners.set eventName [] }
    ⟨{ b1 with listeners :=
        b1.listeners.set eventName ((b1.listeners eventName).getD [] ++ [handler]) }, [], .ok ()⟩

end InProcBus

/-! ## The default bus of the package -/

/-- The package state: the variable `globalBus`. -/
structure Package where
  globalBus : InProcBus

/-- The package state at program start, `var globalBus = New()`. -/
def Package.initial : Package := ⟨New⟩

/-- The outcome of a package-level call: the package state after it, the handler invocations
it made and what it returned or the panic that ended it. -/
structure PackageStep (α : Type) where
  pkg : Package
  calls : List Invocation
  result : Except Panic α

/-- A call of a method on `globalBus`, which stays the bus the variable holds. -/
def onGlobalBus {α : Type} (s : Step α) : PackageStep α :=
  ⟨⟨s.bus⟩, s.calls, s.result⟩

/-- The function `GetBus`. -/
def GetBus (p : Package) : InProcBus := p.globalBus

/-- The package-level `AddHandler`. -/
def AddHandler (p : Package) (_implName : String) (handler : HandlerFunc) : PackageStep Unit :=
  onGlobalBus (p.globalBus.AddHandler handler)

/-- The package-level `AddCtxHandler`. -/
def AddCtxHandler (p : Package) (_implName : String) (handler : HandlerFunc) :
    PackageStep Unit :=
  onGlobalBus (p.globalBus.AddCtxHandler handler)

/-- The package-level `AddEventListener`. -/
def AddEventListener (p : Package) (handler : HandlerFunc) : PackageStep Unit :=
  onGlobalBus (p.globalBus.AddEventListener handler)

/-- The package-level `AddWildcardListener`. -/
def AddWildcardListener (p : Package) (handler : HandlerFunc) : PackageStep Unit :=
  onGlobalBus (p.globalBus.AddWildcardListener handler)

/-- The package-level `Dispatch`. -/
def Dispatch (p : Package) (msg : Msg) : PackageStep GoError :=
  onGlobalBus (p.globalBus.Dispatch msg)

/-- The package-level `DispatchCtx`. -/
def DispatchCtx (p : Package) (ctx : Option Value) (msg : Msg) : PackageStep GoError :=
  onGlobalBus (p.globalBus.DispatchCtx ctx msg)

/-- The package-level `Publish`. -/
def Publish (p : Package) (msg : Msg) : PackageStep GoError :=
  onGlobalBus (p.globalBus.Publish msg)

/-- The function `ClearBusHandlers`: `globalBus = New()`. -/
def ClearBusHandlers (_p : Package) : Package := ⟨New⟩

/-! ## Sequences of registrations -/

/-- One registration call on a bus. -/
inductive Registration where
  | handler (h : HandlerFunc)
  | ctxHandler (h : HandlerFunc)
  | eventListener (h : HandlerFunc)
  | wildcardListener (h : HandlerFunc)

/-- The routing table after one registration call (the table the call leaves behind, also
when it panics). -/
def InProcBus.register (b : InProcBus) : Registration → InProcBus
  | .handler h => (b.AddHandler h).bus
  | .ctxHandler h => (b.AddCtxHandler h).bus
  | .eventListener h => (b.AddEventListener h).bus
  | .wildcardListener h => (b.AddWildcardListener h).bus

/-- The routing table after a sequence of registration calls, made in order. -/
def InProcBus.registerAll (b : InProcBus) : List Registration → InProcBus
  | [] => b
  | r :: rs => InProcBus.registerAll (b.register r) rs

/-- The listeners a sequence of registrations adds for the event name `E`, in the order of
their registration: the handlers passed to `AddEventListener` whose derived key is `E`. -/
def listenersFor (E : String) : List Registration → List HandlerFunc
  | [] => []
  | .eventListener h :: rs =>
    match handlerKey h 0 with
    | .ok k => if k = E then h :: listenersFor E rs else listenersFor E rs
    | .error _ => listenersFor E rs
  | _ :: rs => listenersFor E rs

/-- The wildcard listeners a sequence of registrations adds, in the order of their
registration. -/
def wildcardsOf : List Registration → List HandlerFunc
  | [] => []
  | .wildcardListener h :: rs => h :: wildcardsOf rs
  | _ :: rs => wildcardsOf rs

/-- The invocation of the listener `l` on the single argument `m`. -/
def invocationOf (m : Value) (l : HandlerFunc) : Option Invocation :=
  l.map fun h => ⟨h.id, [m]⟩

/-- The listener `l`, called with the message `m`, runs its body once on `m` and hands back
`r` as its first result, `r` being nil or an error. -/
def Returns (l : HandlerFunc) (m : Value) (r : GoError) : Prop :=
  ∃ h rs, l = some h ∧ reflect.Call l [reflect.ValueOf (some m)] = ([⟨h.id, [m]⟩], .ok rs) ∧
    firstAsError rs = .ok r

/-- The type from whose element type a registration derives the routing key: the parameter
at position `i` of a handler that is a function; `none` when the handler is nil or not a
function, has no such parameter, or the parameter's type has no element type. -/
def keyElem (handler : HandlerFunc) (i : Nat) : Option GoType :=
  match handler with
  | none => none
  | some h =>
    match h.typ.signature with
    | none => none
    | some (ins, _, _) =>
      match ins[i]? with
      | none => none
      | some t => t.Elem

/-- Whether a panic was raised by the body of a handler, rather than by the bus or by
`reflect` on behalf of the bus. -/
def Panic.fromHandler : Panic → Bool
  | .inHandler _ => true
  | _ => false

/-- What Go's typing gives for a function with the result list `error`: whenever its body
returns, it returns one result, which is nil or a value whose type implements `error`. -/
def ReturnsError (h : Handler) : Prop :=
  ∀ f, h.body = some f → ∀ args rs, f args = .results rs →
    ∃ r, rs = [r] ∧ ∀ e, r = some e → GoType.implements errorType e.typ = true

/-- The statements of `Dispatch` and `DispatchCtx` that follow the lookup, as a function of
the entry `handler` read from the single-handler table and of the arguments of the call. -/
def InProcBus.callHandler (b : InProcBus) (handler : HandlerFunc)
    (params : List (Option Value)) : Step GoError :=
  match handler with
  | none => ⟨b, [], .ok (some ErrHandlerNotFound)⟩
  | some h =>
    match reflect.Call (some h) params with
    | (calls, .error p) => ⟨b, calls, .error p⟩
    | (calls, .ok ret) => ⟨b, calls, firstAsError ret⟩

/-- Among the invocations `calls` there is one of the function `l` in which its body
returned `r` as its first result. -/
def ReturnedBy (calls : List Invocation) (l : HandlerFunc) (r : GoError) : Prop :=
  ∃ h f args rest, l = some h ∧ h.body = some f ∧ ⟨h.id, args⟩ ∈ calls ∧
    f args = .results (r :: rest)

/-- The handler `l` is a non-nil function of shape `func(P) error`, and its body returns as
that result list says. -/
def WellShaped (P : GoType) (l : HandlerFunc) : Prop :=
  ∃ h f, l = some h ∧ h.typ.signature = some ([P], [errorType], false) ∧ h.body = some f ∧
    ReturnsError h

/-! ## Example values -/

/-- The command type `CreateUserCmd`. -/
def createUserCmd : GoType :=
  .named "models" "CreateUserCmd" [] [] (.struct ["Name"] [.basic "string"])

/-- The event type `UserCreated`. -/
def userCreated : GoType :=
  .named "events" "UserCreated" [] [] (.struct ["ID"] [.basic "int64"])

/-- The interface type `context.Context`. -/
def contextType : GoType :=
  .named "context" "Context" [] []
    (.interface ["Deadline() (time.Time, bool)", "Done() <-chan struct\x7b\x7d", "Err() error",
      "Value(any) any"])

/-- The empty interface `interface{}`. -/
def emptyInterface : GoType := .interface []

/-- A message `&CreateUserCmd{...}`. -/
def aCreateUserCmd : Value := ⟨.pointer createUserCmd, 1⟩

/-- A message `&UserCreated{...}`. -/
def aUserCreated : Value := ⟨.pointer userCreated, 2⟩

/-- A context as `context.Background()` returns it. -/
def background : Value :=
  ⟨.named "context" "backgroundCtx"
    ["Deadline() (time.Time, bool)", "Done() <-chan struct\x7b\x7d", "Err() error", "Value(any) any",
      "String() string"] [] (.struct [] []), 3⟩

/-- An error made by `errors.New`, other than `ErrHandlerNotFound`. -/
def errBoom : Value := ⟨ErrHandlerNotFound.typ, 4⟩

/-- A handler `func(cmd *CreateUserCmd) error` that returns `r`. -/
def createUser (id : Nat) (r : GoError) : Handler :=
  { typ := .func [.pointer createUserCmd] [errorType] false, id := id,
    body := some fun _ => .results [r] }

/-- A handler `func(ctx context.Context, cmd *CreateUserCmd) error` that returns `r`. -/
def createUserCtx (id : Nat) (r : GoError) : Handler :=
  { typ := .func [contextType, .pointer createUserCmd] [errorType] false, id := id,
    body := some fun _ => .results [r] }

/-- A listener `func(e *UserCreated) error` that returns `r`. -/
def onUserCreated (id : Nat) (r : GoError) : Handler :=
  { typ := .func [.pointer userCreated] [errorType] false, id := id,
    body := some fun _ => .results [r] }

/-- A wildcard listener `func(msg interface{}) error` that returns `r`. -/
def onAnything (id : Nat) (r : GoError) : Handler :=
  { typ := .func [emptyInterface] [errorType] false, id := id,
    body := some fun _ => .results [r] }

/-- A function `func(cmd *CreateUserCmd)` without result. -/
def createUserNoResult : Handler :=
  { typ := .func [.pointer createUserCmd] [] false, id := 20,
    body := some fun _ => .results [] }

/-- A function `func(cmd *CreateUserCmd, force bool) error` with a parameter too many. -/
def createUserTwoParams : Handler :=
  { typ := .func [.pointer createUserCmd, .basic "bool"] [errorType] false, id := 21,
    body := some fun _ => .results [none] }

/-- A function `func(cmd *CreateUserCmd) int` whose result is no error. -/
def createUserIntResult : Handler :=
  { typ := .func [.pointer createUserCmd] [.basic "int"] false, id := 22,
    body := some fun _ => .results [some ⟨.basic "int", 0⟩] }

/-- A nil function value of type `func(cmd *CreateUserCmd) error`. -/
def createUserNilFunc : Handler :=
  { typ := .func [.pointer createUserCmd] [errorType] false, id := 23, body := none }

/-- A type named `CreateUserCmd` as well, declared in another package with other fields. -/
def legacyCreateUserCmd : GoType :=
  .named "legacy" "CreateUserCmd" [] [] (.struct ["Login", "Admin"] [.basic "string", .basic "bool"])

/-- A message `&legacy.CreateUserCmd{...}`. -/
def aLegacyCreateUserCmd : Value := ⟨.pointer legacyCreateUserCmd, 5⟩

/-- A second message `&CreateUserCmd{...}`, with other contents than `aCreateUserCmd`. -/
def anotherCreateUserCmd : Value := ⟨.pointer createUserCmd, 6⟩

/-- A `CreateUserCmd` passed by value. -/
def createUserCmdByValue : Value := ⟨createUserCmd, 7⟩

/-- Three registrations: a listener of `UserCreated`, a function registered as listener of
`CreateUserCmd`, and a wildcard listener. -/
def mixedRegistrations : List Registration :=
  [.eventListener (some (onUserCreated 1 none)), .eventListener (some (createUser 10 none)),
    .wildcardListener (some (onAnything 3 none))]

/-- A bus with a handler, a listener and a wildcard listener for `CreateUserCmd`, each of
shape `func(cmd *CreateUserCmd) error`. -/
def createUserBus : InProcBus :=
  New.registerAll [.handler (some (createUser 10 none)),
    .eventListener (some (createUser 11 none)), .wildcardListener (some (createUser 12 none))]

/-- Three registrations without a wildcard listener: a command handler, a listener of
`UserCreated`, and a function registered as listener of `CreateUserCmd`. -/
def commandAndListeners : List Registration :=
  [.handler (some (createUser 10 none)), .eventListener (some (onUserCreated 1 none)),
    .eventListener (some (createUser 11 none))]

/-- A bus with a handler for `CreateUserCmd` and two wildcard listeners, a function
`func(msg interface{}) error` and the nil handler. -/
def busWithWildcards : InProcBus :=
  New.registerAll [.handler (some (createUser 10 none)),
    .wildcardListener (some (onAnything 3 none)), .wildcardListener none]

/-! ## Lemmas on the model of `reflect` -/

mutual
theorem GoType.identical_refl : ∀ t : GoType, GoType.identical t t = true
  | .basic _ => by simp [GoType.identical]
  | .named _ _ _ _ u => by simp [GoType.identical, GoType.identical_refl u]
  | .pointer a => by simp [GoType.identical, GoType.identical_refl a]
  | .slice a => by simp [GoType.identical, GoType.identical_refl a]
  | .array _ a => by simp [GoType.identical, GoType.identical_refl a]
  | .chan a => by simp [GoType.identical, GoType.identical_refl a]
  | .map k a => by simp [GoType.identical, GoType.identical_refl a, GoType.identical_refl k]
  | .struct _ ts => by simp [GoType.identical, GoType.identicalList_refl ts]
  | .func i o _ => by
    simp [GoType.identical, GoType.identicalList_refl i, GoType.identicalList_refl o]
  | .interface _ => by simp [GoType.identical]
theorem GoType.identicalList_refl : ∀ ts : List GoType, GoType.identicalList ts ts = true
  | [] => by simp [GoType.identicalList]
  | t :: ts => by
    simp [GoType.identicalList, GoType.identical_refl t, GoType.identicalList_refl ts]
end

/-- A value may be assigned to a variable of its own type. -/
theorem GoType.assignableTo_self (t : GoType) : t.AssignableTo t = true := by
  simp [GoType.AssignableTo, GoType.directlyAssignable, GoType.identical_refl]

/-- The routing key of a message whose type has an element type. -/
theorem msgName_of_elem (m : Value) (E : GoType) (h : m.typ.Elem = some E) :
    msgName (some m) = .ok E.Name := by
  simp [msgName, reflect.Elem, reflect.TypeOf, h, Except.map]

/-- The routing key of a function whose parameter at position `i` has an element type. -/
theorem handlerKey_of_elem (H : Handler) (i : Nat) (ins outs : List GoType) (v : Bool)
    (P E : GoType) (hsig : H.typ.signature = some (ins, outs, v)) (hin : ins[i]? = some P)
    (hP : P.Elem = some E) : handlerKey (some H) i = .ok E.Name := by
  simp [handlerKey, reflect.In, reflect.TypeOfHandler, hsig, hin, reflect.Elem, hP, Except.map]

theorem GoMap.set_same {V : Type} (m : GoMap V) (k : String) (v : V) : m.set k v k = some v := by
  simp [GoMap.set]

theorem GoMap.set_other {V : Type} (m : GoMap V) (k k' : String) (v : V) (h : k' ≠ k) :
    m.set k v k' = m k' := by
  simp [GoMap.set, h]

/-- What `Dispatch` does when the table holds, under the key of the message, a function of
one parameter to which the message may be assigned. -/
theorem InProcBus.dispatch_found (b : InProcBus) (H : Handler) (P : GoType) (outs : List GoType)
    (f : List Value → Returned) (m : Value) (name : String)
    (hname : msgName (some m) = .ok name) (hfound : b.handlers name = some (some H))
    (hshape : H.typ.signature = some ([P], outs, false)) (hbody : H.body = some f)
    (hassign : m.typ.AssignableTo P = true) :
    b.Dispatch (some m) =
      match f [m] with
      | .panics c => ⟨b, [⟨H.id, [m]⟩], .error (.inHandler c)⟩
      | .results rs => ⟨b, [⟨H.id, [m]⟩], firstAsError rs⟩ := by
  simp only [InProcBus.Dispatch, hname, hfound, Option.getD_some, reflect.Call, hshape, hbody,
    reflect.ValueOf, reflect.validArgs]
  simp [reflect.fixedAssignable, hassign]
  cases f [m] <;> rfl

/-- The first result of a call, when it is nil or an error, is what the dispatcher returns. -/
theorem firstAsError_of_error (r : GoError) (rest : List (Option Value))
    (hr : ∀ e, r = some e → GoType.implements errorType e.typ = true) :
    firstAsError (r :: rest) = .ok r := by
  cases r with
  | none => rfl
  | some e => simp [firstAsError, hr e rfl]

/-! ## The claims -/

/-- C1. When the single-handler table has no entry under the type name of the message, both
`Dispatch` and `DispatchCtx` (with any context) return `ErrHandlerNotFound` and invoke no
handler. -/
theorem dispatch_without_handler (b : InProcBus) (ctx : Option Value) (msg : Msg) (name : String)
    (hname : msgName msg = .ok name) (habsent : b.handlers name = none) :
    (b.Dispatch msg).result = .ok (some ErrHandlerNotFound) ∧ (b.Dispatch msg).calls = [] ∧
    (b.DispatchCtx ctx msg).result = .ok (some ErrHandlerNotFound) ∧
    (b.DispatchCtx ctx msg).calls = [] := by
  simp [InProcBus.Dispatch, InProcBus.DispatchCtx, hname, habsent]

/-- Witness of C1: a `CreateUserCmd` message on the empty bus. -/
theorem dispatch_without_handler_witness :
    (New.Dispatch (some aCreateUserCmd)).result = .ok (some ErrHandlerNotFound) ∧
    (New.Dispatch (some aCreateUserCmd)).calls = [] ∧
    (New.DispatchCtx (some background) (some aCreateUserCmd)).result
      = .ok (some ErrHandlerNotFound) ∧
    (New.DispatchCtx (some background) (some aCreateUserCmd)).calls = [] :=
  dispatch_without_handler New (some background) (some aCreateUserCmd) "CreateUserCmd" rfl rfl

/-- C2. Let `H` be a function of shape `func(P) error`, registered with `AddHandler`, and `m` a
message of type `P`, on which the body of `H` returns `r`.  Then the registration succeeds and
`Dispatch(m)` invokes `H` once, with the single argument `m`, invokes nothing else and returns
`r`: nil when `r` is nil, the same error value otherwise. -/
theorem dispatch_invokes_registered_handler (b : InProcBus) (H : Handler) (E : GoType)
    (f : List Value → Returned) (m : Value) (r : GoError)
    (hshape : H.typ.signature = some ([m.typ], [errorType], false))
    (helem : m.typ.Elem = some E) (hbody : H.body = some f)
    (hret : f [m] = .results [r])
    (hr : ∀ e, r = some e → GoType.implements errorType e.typ = true) :
    (b.AddHandler (some H)).result = .ok () ∧
    ((b.AddHandler (some H)).bus.Dispatch (some m)).calls = [⟨H.id, [m]⟩] ∧
    ((b.AddHandler (some H)).bus.Dispatch (some m)).result = .ok r := by
  have hkey := handlerKey_of_elem H 0 [m.typ] [errorType] false m.typ E hshape rfl helem
  have hd := InProcBus.dispatch_found (b.AddHandler (some H)).bus H m.typ [errorType] f m E.Name
    (msgName_of_elem m E helem) (by simp [InProcBus.AddHandler, hkey, GoMap.set]) hshape hbody
    (GoType.assignableTo_self _)
  rw [hd, hret]
  simp [InProcBus.AddHandler, hkey, firstAsError_of_error r [] hr]

/-- Witness of C2: the handler `CreateUser` returning the error `errBoom`. -/
theorem dispatch_invokes_registered_handler_witness :
    (New.AddHandler (some (createUser 10 (some errBoom)))).result = .ok () ∧
    ((New.AddHandler (some (createUser 10 (some errBoom)))).bus.Dispatch
      (some aCreateUserCmd)).calls = [⟨10, [aCreateUserCmd]⟩] ∧
    ((New.AddHandler (some (createUser 10 (some errBoom)))).bus.Dispatch
      (some aCreateUserCmd)).result = .ok (some errBoom) :=
  dispatch_invokes_registered_handler New (createUser 10 (some errBoom)) createUserCmd
    (fun _ => .results [some errBoom]) aCreateUserCmd (some errBoom) rfl rfl rfl rfl
    (fun e he => by cases he; rfl)

/-- C3. Let `H1` and `H2` be functions of shape `func(P) error` for the same type `P`.  After
`AddHandler(H1)` and then `AddHandler(H2)`, neither of which fails, `Dispatch` of a message
`m` of type `P` makes one invocation, of `H2` on `m`, and returns what `H2` returns. -/
theorem second_handler_replaces_first (b : InProcBus) (H1 H2 : Handler) (E : GoType)
    (f : List Value → Returned) (m : Value) (r : GoError)
    (hshape1 : H1.typ.signature = some ([m.typ], [errorType], false))
    (hshape2 : H2.typ.signature = some ([m.typ], [errorType], false))
    (helem : m.typ.Elem = some E) (hbody : H2.body = some f)
    (hret : f [m] = .results [r])
    (hr : ∀ e, r = some e → GoType.implements errorType e.typ = true) :
    (b.AddHandler (some H1)).result = .ok () ∧
    ((b.AddHandler (some H1)).bus.AddHandler (some H2)).result = .ok () ∧
    (((b.AddHandler (some H1)).bus.AddHandler (some H2)).bus.Dispatch (some m)).calls
      = [⟨H2.id, [m]⟩] ∧
    (((b.AddHandler (some H1)).bus.AddHandler (some H2)).bus.Dispatch (some m)).result
      = .ok r := by
  have hkey1 := handlerKey_of_elem H1 0 [m.typ] [errorType] false m.typ E hshape1 rfl helem
  have hkey2 := handlerKey_of_elem H2 0 [m.typ] [errorType] false m.typ E hshape2 rfl helem
  have hd := InProcBus.dispatch_found ((b.AddHandler (some H1)).bus.AddHandler (some H2)).bus
    H2 m.typ [errorType] f m E.Name (msgName_of_elem m E helem)
    (by simp [InProcBus.AddHandler, hkey1, hkey2, GoMap.set]) hshape2 hbody
    (GoType.assignableTo_self _)
  rw [hd, hret]
  simp [InProcBus.AddHandler, hkey1, hkey2, firstAsError_of_error r [] hr]

/-- Witness of C3: a first handler returning an error, replaced by one returning nil. -/
theorem second_handler_replaces_first_witness :
    (New.AddHandler (some (createUser 10 (some errBoom)))).result = .ok () ∧
    ((New.AddHandler (some (createUser 10 (some errBoom)))).bus.AddHandler
      (some (createUser 11 none))).result = .ok () ∧
    (((New.AddHandler (some (createUser 10 (some errBoom)))).bus.AddHandler
      (some (createUser 11 none))).bus.Dispatch (some aCreateUserCmd)).calls
      = [⟨11, [aCreateUserCmd]⟩] ∧
    (((New.AddHandler (some (createUser 10 (some errBoom)))).bus.AddHandler
      (some (createUser 11 none))).bus.Dispatch (some aCreateUserCmd)).result = .ok none :=
  second_handler_replaces_first New (createUser 10 (some errBoom)) (createUser 11 none)
    createUserCmd (fun _ => .results [none]) aCreateUserCmd none rfl rfl rfl rfl rfl
    (fun e he => by cases he)

/-! ## Lemmas on `Publish` and on sequences of registrations -/

/-- The loop over `xs ++ ys` is the loop over `xs`, continued over `ys` when the first loop
was not left early. -/
theorem InProcBus.callListeners_append (params : List (Option Value)) (xs ys : List HandlerFunc) :
    InProcBus.callListeners params (xs ++ ys) =
      match InProcBus.callListeners params xs with
      | (calls, some r) => (calls, some r)
      | (calls, none) =>
        (calls ++ (InProcBus.callListeners params ys).1, (InProcBus.callListeners params ys).2) := by
  induction xs with
  | nil => simp [InProcBus.callListeners]
  | cons x xs ih =>
    simp only [List.cons_append, InProcBus.callListeners]
    rcases hc : reflect.Call x params with ⟨calls, _ | ret⟩
    · simp
    · simp only
      rcases hf : firstAsError ret with _ | _ | e
      · simp
      · simp only [List.append_eq, ih]
        rcases InProcBus.callListeners params xs with ⟨c, _ | r⟩ <;> simp
      · simp

/-- The method `Publish` runs one loop over the listeners of the type followed by the
wildcard listeners, and returns nil when the loop runs to its end. -/
theorem InProcBus.publish_eq (b : InProcBus) (m : Value) (name : String)
    (hname : msgName (some m) = .ok name) :
    b.Publish (some m) =
      ⟨b, (InProcBus.callListeners [some m] ((b.listeners name).getD [] ++ b.wildcardListeners)).1,
        ((InProcBus.callListeners [some m]
          ((b.listeners name).getD [] ++ b.wildcardListeners)).2).getD (.ok none)⟩ := by
  simp only [InProcBus.Publish, hname, reflect.ValueOf, InProcBus.callListeners_append]
  rcases InProcBus.callListeners [some m] ((b.listeners name).getD []) with ⟨c, _ | r⟩
  · rcases InProcBus.callListeners [some m] b.wildcardListeners with ⟨c', _ | r'⟩ <;> simp
  · simp

/-- The loop steps over a listener that returns nil. -/
theorem InProcBus.callListeners_cons_nil (m : Value) (l : HandlerFunc) (rest : List HandlerFunc)
    (hl : Returns l m none) :
    InProcBus.callListeners [some m] (l :: rest) =
      ((invocationOf m l).toList ++ (InProcBus.callListeners [some m] rest).1,
        (InProcBus.callListeners [some m] rest).2) := by
  obtain ⟨h, rs, rfl, hcall, hfirst⟩ := hl
  simp only [reflect.ValueOf] at hcall
  simp [InProcBus.callListeners, hcall, hfirst, invocationOf]

/-- The loop stops at a listener that returns an error. -/
theorem InProcBus.callListeners_cons_error (m : Value) (l : HandlerFunc) (rest : List HandlerFunc)
    (e : Value) (hl : Returns l m (some e)) :
    InProcBus.callListeners [some m] (l :: rest) =
      ((invocationOf m l).toList, some (.ok (some e))) := by
  obtain ⟨h, rs, rfl, hcall, hfirst⟩ := hl
  simp only [reflect.ValueOf] at hcall
  simp [InProcBus.callListeners, hcall, hfirst, invocationOf]

/-- The loop over listeners that all return nil up to `rest`. -/
theorem InProcBus.callListeners_nil_then (m : Value) (pre rest : List HandlerFunc)
    (hpre : ∀ l ∈ pre, Returns l m none) :
    InProcBus.callListeners [some m] (pre ++ rest) =
      (pre.filterMap (invocationOf m) ++ (InProcBus.callListeners [some m] rest).1,
        (InProcBus.callListeners [some m] rest).2) := by
  induction pre with
  | nil => simp
  | cons l pre ih =>
    have hl := hpre l (List.mem_cons_self _ _)
    have ih' := ih fun x hx => hpre x (List.mem_cons_of_mem _ hx)
    rw [List.cons_append, InProcBus.callListeners_cons_nil m l _ hl, ih']
    obtain ⟨h, rs, rfl, -, -⟩ := hl
    simp [invocationOf]

/-- The listeners of a type after one registration. -/
theorem InProcBus.register_listeners (b : InProcBus) (r : Registration) (E : String) :
    ((b.register r).listeners E).getD [] = (b.listeners E).getD [] ++ listenersFor E [r] := by
  cases r with
  | handler h =>
    simp only [InProcBus.register, InProcBus.AddHandler, listenersFor]
    cases handlerKey h 0 <;> simp
  | ctxHandler h =>
    simp only [InProcBus.register, InProcBus.AddCtxHandler, listenersFor]
    cases handlerKey h 1 <;> simp
  | wildcardListener h => simp [InProcBus.register, InProcBus.AddWildcardListener, listenersFor]
  | eventListener h =>
    simp only [InProcBus.register, InProcBus.AddEventListener, listenersFor]
    rcases handlerKey h 0 with p | k
    · simp
    · by_cases hk : k = E
      · subst hk
        cases hl : b.listeners k <;> simp [GoMap.set, hl]
      · have hk' : ¬ E = k := fun h => hk h.symm
        cases hl : b.listeners k <;> simp [GoMap.set, hk, hk', hl]

/-- The wildcard listeners after one registration. -/
theorem InProcBus.register_wildcards (b : InProcBus) (r : Registration) :
    (b.register r).wildcardListeners = b.wildcardListeners ++ wildcardsOf [r] := by
  cases r with
  | handler h =>
    simp only [InProcBus.register, InProcBus.AddHandler, wildcardsOf]
    cases handlerKey h 0 <;> simp
  | ctxHandler h =>
    simp only [InProcBus.register, InProcBus.AddCtxHandler, wildcardsOf]
    cases handlerKey h 1 <;> simp
  | wildcardListener h => simp [InProcBus.register, InProcBus.AddWildcardListener, wildcardsOf]
  | eventListener h =>
    simp only [InProcBus.register, InProcBus.AddEventListener, wildcardsOf]
    rcases handlerKey h 0 with p | k
    · simp
    · cases hl : b.listeners k <;> simp [hl]

theorem listenersFor_cons (E : String) (r : Registration) (rs : List Registration) :
    listenersFor E (r :: rs) = listenersFor E [r] ++ listenersFor E rs := by
  cases r with
  | eventListener h =>
    simp only [listenersFor]
    rcases handlerKey h 0 with p | k
    · simp
    · by_cases hk : k = E <;> simp [hk]
  | handler h => simp [listenersFor]
  | ctxHandler h => simp [listenersFor]
  | wildcardListener h => simp [listenersFor]

theorem wildcardsOf_cons (r : Registration) (rs : List Registration) :
    wildcardsOf (r :: rs) = wildcardsOf [r] ++ wildcardsOf rs := by
  cases r <;> simp [wildcardsOf]

/-- The listeners of a type after a sequence of registrations: those the bus had, followed
by those the sequence adds for the type, in order. -/
theorem InProcBus.registerAll_listeners (rs : List Registration) (b : InProcBus) (E : String) :
    ((b.registerAll rs).listeners E).getD [] = (b.listeners E).getD [] ++ listenersFor E rs := by
  induction rs generalizing b with
  | nil => simp [InProcBus.registerAll, listenersFor]
  | cons r rs ih =>
    rw [InProcBus.registerAll, ih, InProcBus.register_listeners, listenersFor_cons E r rs,
      List.append_assoc]

/-- The wildcard listeners after a sequence of registrations. -/
theorem InProcBus.registerAll_wildcards (rs : List Registration) (b : InProcBus) :
    (b.registerAll rs).wildcardListeners = b.wildcardListeners ++ wildcardsOf rs := by
  induction rs generalizing b with
  | nil => simp [InProcBus.registerAll, wildcardsOf]
  | cons r rs ih =>
    rw [InProcBus.registerAll, ih, InProcBus.register_wildcards, wildcardsOf_cons r rs,
      List.append_assoc]

/-- The invocations of a list of functions on the message `m`. -/
theorem filterMap_invocationOf (m : Value) (hs : List Handler) :
    (hs.map some).filterMap (invocationOf m) = hs.map (fun h => ⟨h.id, [m]⟩) := by
  induction hs with
  | nil => rfl
  | cons h hs ih => simp [invocationOf, ← ih]

/-- C4. Take any sequence `rs` of registrations on a new bus and a message `m` of event type
`E`.  Let `Ls` be the listeners that `rs` registers for `E` with `AddEventListener` and `Ws`
those it registers with `AddWildcardListener`, both in the order of their registration.  If
each of them returns nil on `m`, then `Publish(m)` invokes the listeners of `Ls`, then those of
`Ws`, each once, in that order, each on `m`, and returns nil. -/
theorem publish_invokes_in_registration_order (rs : List Registration) (Ls Ws : List Handler)
    (m : Value) (E : String) (hname : msgName (some m) = .ok E)
    (hLs : listenersFor E rs = Ls.map some) (hWs : wildcardsOf rs = Ws.map some)
    (hnil : ∀ h ∈ Ls ++ Ws, Returns (some h) m none) :
    ((New.registerAll rs).Publish (some m)).calls
      = (Ls ++ Ws).map (fun h => ⟨h.id, [m]⟩) ∧
    ((New.registerAll rs).Publish (some m)).result = .ok none := by
  have hall : ∀ l ∈ (Ls ++ Ws).map some, Returns l m none := by
    intro l hl
    obtain ⟨h, hh, rfl⟩ := List.mem_map.1 hl
    exact hnil h hh
  have hrun := InProcBus.callListeners_nil_then m ((Ls ++ Ws).map some) [] hall
  rw [InProcBus.publish_eq _ m E hname, InProcBus.registerAll_listeners,
    InProcBus.registerAll_wildcards, hLs, hWs]
  simp only [New, GoMap.empty, Option.getD_none, List.nil_append, ← List.map_append]
  rw [List.append_nil] at hrun
  rw [hrun, filterMap_invocationOf]
  simp [InProcBus.callListeners]

/-- Witness of C4: listeners `A` and `B` for `UserCreated` and a wildcard listener `W`,
registered in the order `A`, `W`, `B` among other registrations. -/
theorem publish_invokes_in_registration_order_witness :
    ((New.registerAll [.eventListener (some (onUserCreated 1 none)),
        .wildcardListener (some (onAnything 3 none)), .handler (some (createUser 10 none)),
        .eventListener (some (onUserCreated 2 none))]).Publish (some aUserCreated)).calls
      = [⟨1, [aUserCreated]⟩, ⟨2, [aUserCreated]⟩, ⟨3, [aUserCreated]⟩] ∧
    ((New.registerAll [.eventListener (some (onUserCreated 1 none)),
        .wildcardListener (some (onAnything 3 none)), .handler (some (createUser 10 none)),
        .eventListener (some (onUserCreated 2 none))]).Publish (some aUserCreated)).result
      = .ok none :=
  publish_invokes_in_registration_order _ [onUserCreated 1 none, onUserCreated 2 none]
    [onAnything 3 none] aUserCreated "UserCreated" rfl rfl rfl
    (fun h hh => by
      simp only [List.cons_append, List.nil_append, List.mem_cons, List.mem_singleton,
        List.not_mem_nil, or_false] at hh
      rcases hh with rfl | rfl | rfl <;> exact ⟨_, _, rfl, rfl, rfl⟩)

/-- C5. Let `S` be the listeners of the message's type followed by the wildcard listeners.
If `S` is `pre`, then `L`, then `post`, where every listener of `pre` returns nil on the
message and `L` returns the error `e`, then `Publish` invokes the listeners of `pre` and then
`L`, each once and in order, invokes no listener of `post`, and returns `e`. -/
theorem publish_stops_at_first_error (b : InProcBus) (m : Value) (E : String)
    (pre : List Handler) (L : Handler) (post : List HandlerFunc) (e : Value)
    (hname : msgName (some m) = .ok E)
    (hS : (b.listeners E).getD [] ++ b.wildcardListeners = pre.map some ++ some L :: post)
    (hpre : ∀ h ∈ pre, Returns (some h) m none) (hL : Returns (some L) m (some e)) :
    (b.Publish (some m)).calls = (pre ++ [L]).map (fun h => ⟨h.id, [m]⟩) ∧
    (b.Publish (some m)).result = .ok (some e) := by
  have hall : ∀ l ∈ pre.map some, Returns l m none := by
    intro l hl
    obtain ⟨h, hh, rfl⟩ := List.mem_map.1 hl
    exact hpre h hh
  rw [InProcBus.publish_eq _ m E hname, hS,
    InProcBus.callListeners_nil_then m (pre.map some) (some L :: post) hall,
    InProcBus.callListeners_cons_error m (some L) post e hL, filterMap_invocationOf]
  simp [invocationOf]

/-- Witness of C5: the second of three listeners of `UserCreated` fails; the third and the
wildcard listener are not invoked. -/
theorem publish_stops_at_first_error_witness :
    ((New.registerAll [.eventListener (some (onUserCreated 1 none)),
        .eventListener (some (onUserCreated 2 (some errBoom))),
        .eventListener (some (onUserCreated 3 none)),
        .wildcardListener (some (onAnything 4 none))]).Publish (some aUserCreated)).calls
      = [⟨1, [aUserCreated]⟩, ⟨2, [aUserCreated]⟩] ∧
    ((New.registerAll [.eventListener (some (onUserCreated 1 none)),
        .eventListener (some (onUserCreated 2 (some errBoom))),
        .eventListener (some (onUserCreated 3 none)),
        .wildcardListener (some (onAnything 4 none))]).Publish (some aUserCreated)).result
      = .ok (some errBoom) :=
  publish_stops_at_first_error _ aUserCreated "UserCreated" [onUserCreated 1 none]
    (onUserCreated 2 (some errBoom))
    [some (onUserCreated 3 none), some (onAnything 4 none)] errBoom rfl rfl
    (fun h hh => by
      simp only [List.mem_singleton] at hh
      subst hh
      exact ⟨_, _, rfl, rfl, rfl⟩)
    ⟨_, _, rfl, rfl, rfl⟩

/-- C6. When the bus has no wildcard listener and the multi-listener table has no entry
under the type name of the message, `Publish` invokes nothing and returns nil, so not
`ErrHandlerNotFound`. -/
theorem publish_without_listeners (b : InProcBus) (msg : Msg) (E : String)
    (hname : msgName msg = .ok E) (hnone : b.listeners E = none)
    (hwild : b.wildcardListeners = []) :
    (b.Publish msg).calls = [] ∧ (b.Publish msg).result = .ok none ∧
    (b.Publish msg).result ≠ .ok (some ErrHandlerNotFound) := by
  simp [InProcBus.Publish, hname, hnone, hwild, InProcBus.callListeners]

/-- Witness of C6: a `UserCreated` event on a bus that only has a command handler. -/
theorem publish_without_listeners_witness :
    ((New.AddHandler (some (createUser 10 none))).bus.Publish (some aUserCreated)).calls = [] ∧
    ((New.AddHandler (some (createUser 10 none))).bus.Publish (some aUserCreated)).result
      = .ok none ∧
    ((New.AddHandler (some (createUser 10 none))).bus.Publish (some aUserCreated)).result
      ≠ .ok (some ErrHandlerNotFound) :=
  publish_without_listeners _ (some aUserCreated) "UserCreated" rfl rfl rfl

/-- What `DispatchCtx` does when the table holds, under the key of the message, a function of
two parameters to which the context and the message may be assigned. -/
theorem InProcBus.dispatchCtx_found (b : InProcBus) (H : Handler) (C P : GoType)
    (outs : List GoType) (f : List Value → Returned) (c m : Value) (name : String)
    (hname : msgName (some m) = .ok name) (hfound : b.handlers name = some (some H))
    (hshape : H.typ.signature = some ([C, P], outs, false)) (hbody : H.body = some f)
    (hctx : c.typ.AssignableTo C = true) (hassign : m.typ.AssignableTo P = true) :
    b.DispatchCtx (some c) (some m) =
      match f [c, m] with
      | .panics code => ⟨b, [⟨H.id, [c, m]⟩], .error (.inHandler code)⟩
      | .results rs => ⟨b, [⟨H.id, [c, m]⟩], firstAsError rs⟩ := by
  simp only [InProcBus.DispatchCtx, hname, hfound, Option.getD_some, reflect.Call, hshape, hbody,
    reflect.ValueOf, reflect.validArgs]
  simp [reflect.fixedAssignable, hassign, hctx]
  cases f [c, m] <;> rfl

/-- C7, as amended. Let `H` be a function of shape `func(C, P) error`, registered with
`AddCtxHandler`, `ctx` a context that is not nil (its type is assignable to `C`), and `m` a
message of type `P`, the body of `H` returning `r` on `ctx` and `m`.  Then the registration
succeeds and `DispatchCtx(ctx, m)` invokes `H` once, with the arguments `ctx` and `m`, and
returns `r`; nothing else of `ctx` enters the outcome. -/
theorem dispatchCtx_passes_context (b : InProcBus) (H : Handler) (C E : GoType)
    (f : List Value → Returned) (c m : Value) (r : GoError)
    (hshape : H.typ.signature = some ([C, m.typ], [errorType], false))
    (hctx : c.typ.AssignableTo C = true)
    (helem : m.typ.Elem = some E) (hbody : H.body = some f)
    (hret : f [c, m] = .results [r])
    (hr : ∀ e, r = some e → GoType.implements errorType e.typ = true) :
    (b.AddCtxHandler (some H)).result = .ok () ∧
    ((b.AddCtxHandler (some H)).bus.DispatchCtx (some c) (some m)).calls = [⟨H.id, [c, m]⟩] ∧
    ((b.AddCtxHandler (some H)).bus.DispatchCtx (some c) (some m)).result = .ok r := by
  have hkey := handlerKey_of_elem H 1 [C, m.typ] [errorType] false m.typ E hshape rfl helem
  have hd := InProcBus.dispatchCtx_found (b.AddCtxHandler (some H)).bus H C m.typ [errorType] f
    c m E.Name (msgName_of_elem m E helem) (by simp [InProcBus.AddCtxHandler, hkey, GoMap.set])
    hshape hbody hctx (GoType.assignableTo_self _)
  rw [hd, hret]
  simp [InProcBus.AddCtxHandler, hkey, firstAsError_of_error r [] hr]

/-- Witness of C7 as amended: the background context and a handler returning `errBoom`. -/
theorem dispatchCtx_passes_context_witness :
    (New.AddCtxHandler (some (createUserCtx 12 (some errBoom)))).result = .ok () ∧
    ((New.AddCtxHandler (some (createUserCtx 12 (some errBoom)))).bus.DispatchCtx
      (some background) (some aCreateUserCmd)).calls = [⟨12, [background, aCreateUserCmd]⟩] ∧
    ((New.AddCtxHandler (some (createUserCtx 12 (some errBoom)))).bus.DispatchCtx
      (some background) (some aCreateUserCmd)).result = .ok (some errBoom) :=
  dispatchCtx_passes_context New (createUserCtx 12 (some errBoom)) contextType createUserCmd
    (fun _ => .results [some errBoom]) background aCreateUserCmd (some errBoom) rfl rfl rfl rfl
    rfl (fun e he => by cases he; rfl)

/-- Counterexample to C7: with the nil context, `DispatchCtx` of a message whose handler
`func(context.Context, *CreateUserCmd) error` is registered does not invoke the handler; the
reflective call panics on the zero `reflect.Value` that `reflect.ValueOf(nil)` is. -/
theorem dispatchCtx_nil_context_panics :
    (New.AddCtxHandler (some (createUserCtx 12 none))).result = .ok () ∧
    ((New.AddCtxHandler (some (createUserCtx 12 none))).bus.DispatchCtx none
      (some aCreateUserCmd)).calls = [] ∧
    ((New.AddCtxHandler (some (createUserCtx 12 none))).bus.DispatchCtx none
      (some aCreateUserCmd)).result = .error .callZeroValueArgument :=
  ⟨rfl, rfl, rfl⟩

/-- C8, as amended. Whatever the default bus holds (so after any registrations), after
`ClearBusHandlers()` it is a new, empty bus: for every message with a type name, the
package-level `Dispatch` and `DispatchCtx` return `ErrHandlerNotFound` and the package-level
`Publish` returns nil, and none of them invokes anything. -/
theorem clearBusHandlers_empties (p : Package) (ctx : Option Value) (msg : Msg) (name : String)
    (hname : msgName msg = .ok name) :
    (ClearBusHandlers p).globalBus = New ∧
    (Dispatch (ClearBusHandlers p) msg).result = .ok (some ErrHandlerNotFound) ∧
    (Dispatch (ClearBusHandlers p) msg).calls = [] ∧
    (DispatchCtx (ClearBusHandlers p) ctx msg).result = .ok (some ErrHandlerNotFound) ∧
    (DispatchCtx (ClearBusHandlers p) ctx msg).calls = [] ∧
    (Publish (ClearBusHandlers p) msg).result = .ok none ∧
    (Publish (ClearBusHandlers p) msg).calls = [] := by
  simp [ClearBusHandlers, Dispatch, DispatchCtx, Publish, onGlobalBus, InProcBus.Dispatch,
    InProcBus.DispatchCtx, InProcBus.Publish, InProcBus.callListeners, hname, New, GoMap.empty]

/-- Counterexample to C8: on the cleared default bus, `Dispatch`, `DispatchCtx` and `Publish`
panic for the nil message, and for a `CreateUserCmd` passed by value rather than by pointer;
they return neither `ErrHandlerNotFound` nor nil. -/
theorem cleared_bus_panics_without_type_name :
    (Dispatch (ClearBusHandlers Package.initial) none).result = .error .nilType ∧
    (DispatchCtx (ClearBusHandlers Package.initial) (some background) none).result
      = .error .nilType ∧
    (Publish (ClearBusHandlers Package.initial) none).result = .error .nilType ∧
    (Dispatch (ClearBusHandlers Package.initial) (some ⟨createUserCmd, 1⟩)).result
      = .error .elemOfInvalidType ∧
    (DispatchCtx (ClearBusHandlers Package.initial) (some background)
      (some ⟨createUserCmd, 1⟩)).result = .error .elemOfInvalidType ∧
    (Publish (ClearBusHandlers Package.initial) (some ⟨createUserCmd, 1⟩)).result
      = .error .elemOfInvalidType :=
  ⟨rfl, rfl, rfl, rfl, rfl, rfl⟩

/-- Witness of C8: the default bus with a handler, a context handler replaced by none, a
listener and a wildcard listener registered through the package-level functions. -/
theorem clearBusHandlers_empties_witness :
    (Dispatch (AddWildcardListener (AddEventListener (AddHandler Package.initial "CreateUser"
      (some (createUser 10 none))).pkg (some (onUserCreated 1 none))).pkg
      (some (onAnything 3 none))).pkg (some aCreateUserCmd)).result = .ok none ∧
    (Dispatch (ClearBusHandlers (AddWildcardListener (AddEventListener (AddHandler
      Package.initial "CreateUser" (some (createUser 10 none))).pkg
      (some (onUserCreated 1 none))).pkg (some (onAnything 3 none))).pkg)
      (some aCreateUserCmd)).result = .ok (some ErrHandlerNotFound) ∧
    (Publish (ClearBusHandlers (AddWildcardListener (AddEventListener (AddHandler
      Package.initial "CreateUser" (some (createUser 10 none))).pkg
      (some (onUserCreated 1 none))).pkg (some (onAnything 3 none))).pkg)
      (some aCreateUserCmd)).calls = [] :=
  ⟨rfl,
    (clearBusHandlers_empties (AddWildcardListener (AddEventListener (AddHandler
      Package.initial "CreateUser" (some (createUser 10 none))).pkg
      (some (onUserCreated 1 none))).pkg (some (onAnything 3 none))).pkg none
      (some aCreateUserCmd) "CreateUserCmd" rfl).2.1,
    (clearBusHandlers_empties (AddWildcardListener (AddEventListener (AddHandler
      Package.initial "CreateUser" (some (createUser 10 none))).pkg
      (some (onUserCreated 1 none))).pkg (some (onAnything 3 none))).pkg none
      (some aCreateUserCmd) "CreateUserCmd" rfl).2.2.2.2.2.2⟩

/-- The key of a handler is the name of the element type of `keyElem`, and its derivation
panics exactly when there is no such type. -/
theorem handlerKey_eq (handler : HandlerFunc) (i : Nat) :
    (∀ E, keyElem handler i = some E → handlerKey handler i = .ok E.Name) ∧
    (keyElem handler i = none → ∃ p, handlerKey handler i = .error p) := by
  cases handler with
  | none => simp [keyElem, handlerKey, reflect.In, reflect.TypeOfHandler]
  | some h =>
    simp only [keyElem, handlerKey, reflect.In, reflect.TypeOfHandler, Option.map_some']
    rcases h.typ.signature with _ | ⟨ins, outs, v⟩
    · simp
    · simp only
      cases ins[i]? with
      | none => simp
      | some t =>
        simp only [reflect.Elem]
        cases t.Elem <;> simp [Except.map]

/-- C9, as amended. A registration fails at registration time exactly when no routing key
can be derived from the handler: the handler is nil or not a function, it has no parameter at
the position the registration reads (0 for `AddHandler` and `AddEventListener`, 1 for
`AddCtxHandler`), or the type of that parameter has no element type.  The failed registration
leaves the routing table unchanged.  Every other handler is stored under the name of that
element type, whatever its other parameters and its results are. -/
theorem registration_fails_iff_no_key (b : InProcBus) (handler : HandlerFunc) :
    (keyElem handler 0 = none →
      (∃ p, (b.AddHandler handler).result = .error p) ∧ (b.AddHandler handler).bus = b ∧
      (∃ p, (b.AddEventListener handler).result = .error p) ∧
      (b.AddEventListener handler).bus = b) ∧
    (keyElem handler 1 = none →
      (∃ p, (b.AddCtxHandler handler).result = .error p) ∧ (b.AddCtxHandler handler).bus = b) ∧
    (∀ E, keyElem handler 0 = some E →
      (b.AddHandler handler).result = .ok () ∧
      (b.AddHandler handler).bus.handlers E.Name = some handler ∧
      (b.AddEventListener handler).result = .ok () ∧
      (b.AddEventListener handler).bus.listeners E.Name
        = some ((b.listeners E.Name).getD [] ++ [handler])) ∧
    (∀ E, keyElem handler 1 = some E →
      (b.AddCtxHandler handler).result = .ok () ∧
      (b.AddCtxHandler handler).bus.handlers E.Name = some handler) := by
  refine ⟨fun h0 => ?_, fun h1 => ?_, fun E h0 => ?_, fun E h1 => ?_⟩
  · obtain ⟨p, hp⟩ := (handlerKey_eq handler 0).2 h0
    simp [InProcBus.AddHandler, InProcBus.AddEventListener, hp]
  · obtain ⟨p, hp⟩ := (handlerKey_eq handler 1).2 h1
    simp [InProcBus.AddCtxHandler, hp]
  · have hk := (handlerKey_eq handler 0).1 E h0
    simp only [InProcBus.AddHandler, InProcBus.AddEventListener, hk, GoMap.set]
    cases hl : b.listeners E.Name <;> simp [GoMap.set, hl]
  · have hk := (handlerKey_eq handler 1).1 E h1
    simp [InProcBus.AddCtxHandler, hk, GoMap.set]

/-- Witness of C9 as amended: the nil handler, and a function without result. -/
theorem registration_fails_iff_no_key_witness :
    ((∃ p, (New.AddHandler none).result = .error p) ∧ (New.AddHandler none).bus = New) ∧
    ((New.AddHandler (some createUserNoResult)).result = .ok () ∧
      (New.AddHandler (some createUserNoResult)).bus.handlers "CreateUserCmd"
        = some (some createUserNoResult)) :=
  ⟨⟨((registration_fails_iff_no_key New none).1 rfl).1,
      ((registration_fails_iff_no_key New none).1 rfl).2.1⟩,
    ⟨((registration_fails_iff_no_key New (some createUserNoResult)).2.2.1 createUserCmd rfl).1,
      ((registration_fails_iff_no_key New (some createUserNoResult)).2.2.1
        createUserCmd rfl).2.1⟩⟩

/-- Counterexample to C9: three malformed handlers are accepted by `AddHandler` and stored,
and fail only at dispatch time: a function without result (the index into the results
panics after the handler ran), a function with a parameter too many (the call panics) and a
function whose result is no error (the assertion panics after the handler ran). -/
theorem malformed_handlers_are_stored :
    ((New.AddHandler (some createUserNoResult)).result = .ok () ∧
      (New.AddHandler (some createUserNoResult)).bus.handlers "CreateUserCmd"
        = some (some createUserNoResult) ∧
      ((New.AddHandler (some createUserNoResult)).bus.Dispatch (some aCreateUserCmd)).result
        = .error .indexOutOfRange) ∧
    ((New.AddHandler (some createUserTwoParams)).result = .ok () ∧
      (New.AddHandler (some createUserTwoParams)).bus.handlers "CreateUserCmd"
        = some (some createUserTwoParams) ∧
      ((New.AddHandler (some createUserTwoParams)).bus.Dispatch (some aCreateUserCmd)).result
        = .error .callTooFewArguments) ∧
    ((New.AddHandler (some createUserIntResult)).result = .ok () ∧
      (New.AddHandler (some createUserIntResult)).bus.handlers "CreateUserCmd"
        = some (some createUserIntResult) ∧
      ((New.AddHandler (some createUserIntResult)).bus.Dispatch (some aCreateUserCmd)).result
        = .error .typeAssertion) :=
  ⟨⟨rfl, rfl, rfl⟩, ⟨rfl, rfl, rfl⟩, ⟨rfl, rfl, rfl⟩⟩

/-- C10. The methods `Dispatch`, `DispatchCtx` and `Publish` leave the routing table as it
was (the single-handler table, every listener sequence and the wildcard sequence), whether
they return nil, `ErrHandlerNotFound` or a handler's error, or panic. -/
theorem dispatch_leaves_table_unchanged (b : InProcBus) (ctx : Option Value) (msg : Msg) :
    (b.Dispatch msg).bus = b ∧ (b.DispatchCtx ctx msg).bus = b ∧ (b.Publish msg).bus = b := by
  refine ⟨?_, ?_, ?_⟩
  · unfold InProcBus.Dispatch
    dsimp only
    repeat' split
    all_goals rfl
  · unfold InProcBus.DispatchCtx
    dsimp only
    repeat' split
    all_goals rfl
  · unfold InProcBus.Publish
    dsimp only
    repeat' split
    all_goals rfl


/-! ## What a call can end in -/

/-- A property of both branches of a conditional is a property of the conditional. -/
theorem ite_cases {α : Type} (Q : α → Prop) (c : Prop) [Decidable c] (a b : α)
    (ha : Q a) (hb : Q b) : Q (if c then a else b) := by
  split <;> assumption

/-- The reflective call either panics before the body runs, with a panic that is not the
handler's, or runs the body of a non-nil function once, on the arguments given, and hands
on what the body does. -/
theorem reflect.call_outcome (l : HandlerFunc) (params : List (Option Value)) :
    (∃ p, p.fromHandler = false ∧ reflect.Call l params = ([], .error p)) ∨
    (∃ h f args, l = some h ∧ h.body = some f ∧ reflect.validArgs params = some args ∧
      ((∃ c, f args = .panics c ∧
          reflect.Call l params = ([⟨h.id, args⟩], .error (.inHandler c))) ∨
        (∃ rs, f args = .results rs ∧ reflect.Call l params = ([⟨h.id, args⟩], .ok rs)))) := by
  cases l with
  | none => exact Or.inl ⟨.callOfNonFunc, rfl, rfl⟩
  | some h =>
    rcases hs : h.typ.signature with _ | ⟨ins, outs, variadic⟩
    · exact Or.inl ⟨.callOfNonFunc, rfl, by simp only [reflect.Call, hs]⟩
    · rcases hb : h.body with _ | f
      · exact Or.inl ⟨.callOfNilFunc, rfl, by simp only [reflect.Call, hs, hb]⟩
      · rcases hv : reflect.validArgs params with _ | args
        · refine Or.inl ?_
          simp only [reflect.Call, hs, hb, hv]
          refine ite_cases (fun x : List Invocation × Except Panic (List (Option Value)) =>
              ∃ p : Panic, p.fromHandler = false ∧ x = ([], .error p))
            _ _ _ ⟨.callTooFewArguments, rfl, rfl⟩ ?_
          exact ite_cases (fun x : List Invocation × Except Panic (List (Option Value)) =>
              ∃ p : Panic, p.fromHandler = false ∧ x = ([], .error p))
            _ _ _ ⟨.callTooManyArguments, rfl, rfl⟩ ⟨.callZeroValueArgument, rfl, rfl⟩
        · have hrun : (∃ p : Panic, p.fromHandler = false ∧
                (match f args with
                  | .panics c => ([(⟨h.id, args⟩ : Invocation)], Except.error (Panic.inHandler c))
                  | .results rs => ([⟨h.id, args⟩], Except.ok rs)) = ([], .error p)) ∨
              ((∃ c, f args = .panics c ∧
                (match f args with
                  | .panics c => ([(⟨h.id, args⟩ : Invocation)], Except.error (Panic.inHandler c))
                  | .results rs => ([⟨h.id, args⟩], Except.ok rs))
                  = ([⟨h.id, args⟩], .error (.inHandler c))) ∨
              (∃ rs, f args = .results rs ∧
                (match f args with
                  | .panics c => ([(⟨h.id, args⟩ : Invocation)], Except.error (Panic.inHandler c))
                  | .results rs => ([⟨h.id, args⟩], Except.ok rs))
                  = ([⟨h.id, args⟩], .ok rs))) := by
            rcases f args with rs | c
            · exact Or.inr (Or.inr ⟨rs, rfl, rfl⟩)
            · exact Or.inr (Or.inl ⟨c, rfl, rfl⟩)
          have hQ : (∃ p : Panic, p.fromHandler = false ∧
                reflect.Call (some h) params = ([], .error p)) ∨
              ((∃ c, f args = .panics c ∧
                reflect.Call (some h) params = ([⟨h.id, args⟩], .error (.inHandler c))) ∨
              (∃ rs, f args = .results rs ∧
                reflect.Call (some h) params = ([⟨h.id, args⟩], .ok rs))) := by
            simp only [reflect.Call, hs, hb, hv]
            refine ite_cases (fun x : List Invocation × Except Panic (List (Option Value)) =>
              (∃ p : Panic, p.fromHandler = false ∧ x = ([], .error p)) ∨
              ((∃ c, f args = .panics c ∧ x = ([⟨h.id, args⟩], .error (.inHandler c))) ∨
                (∃ rs, f args = .results rs ∧ x = ([⟨h.id, args⟩], .ok rs))))
              _ _ _ (Or.inl ⟨.callTooFewArguments, rfl, rfl⟩) ?_
            refine ite_cases (fun x : List Invocation × Except Panic (List (Option Value)) =>
              (∃ p : Panic, p.fromHandler = false ∧ x = ([], .error p)) ∨
              ((∃ c, f args = .panics c ∧ x = ([⟨h.id, args⟩], .error (.inHandler c))) ∨
                (∃ rs, f args = .results rs ∧ x = ([⟨h.id, args⟩], .ok rs))))
              _ _ _ (Or.inl ⟨.callTooManyArguments, rfl, rfl⟩) ?_
            refine ite_cases (fun x : List Invocation × Except Panic (List (Option Value)) =>
              (∃ p : Panic, p.fromHandler = false ∧ x = ([], .error p)) ∨
              ((∃ c, f args = .panics c ∧ x = ([⟨h.id, args⟩], .error (.inHandler c))) ∨
                (∃ rs, f args = .results rs ∧ x = ([⟨h.id, args⟩], .ok rs))))
              _ _ _ (Or.inl ⟨.callArgumentType, rfl, rfl⟩) ?_
            exact ite_cases (fun x : List Invocation × Except Panic (List (Option Value)) =>
              (∃ p : Panic, p.fromHandler = false ∧ x = ([], .error p)) ∨
              ((∃ c, f args = .panics c ∧ x = ([⟨h.id, args⟩], .error (.inHandler c))) ∨
                (∃ rs, f args = .results rs ∧ x = ([⟨h.id, args⟩], .ok rs))))
              _ _ _ (Or.inl ⟨.callArgumentType, rfl, rfl⟩) hrun
          rcases hQ with hp | hr
          · exact Or.inl hp
          · exact Or.inr ⟨h, f, args, rfl, hb, rfl, hr⟩

/-- A first result that the dispatcher returns is the head of the results. -/
theorem firstAsError_ok (ret : List (Option Value)) (r : GoError)
    (h : firstAsError ret = .ok r) : ∃ rest, ret = r :: rest := by
  rcases ret with _ | ⟨_ | e, rest⟩
  · simp [firstAsError] at h
  · simp only [firstAsError, Except.ok.injEq] at h
    exact ⟨rest, by rw [← h]⟩
  · simp only [firstAsError] at h
    split at h
    · simp only [Except.ok.injEq] at h
      exact ⟨rest, by rw [← h]⟩
    · simp at h

/-- The methods `Dispatch` and `DispatchCtx` read the entry under the type name of the message
and go on with it. -/
theorem InProcBus.dispatch_eq_callHandler (b : InProcBus) (ctx : Option Value) (msg : Msg)
    (n : String) (hname : msgName msg = .ok n) :
    b.Dispatch msg = b.callHandler ((b.handlers n).getD none) [msg] ∧
    b.DispatchCtx ctx msg = b.callHandler ((b.handlers n).getD none) [ctx, msg] := by
  simp only [InProcBus.Dispatch, InProcBus.DispatchCtx, InProcBus.callHandler, hname,
    reflect.ValueOf]
  cases (b.handlers n).getD none <;> simp

/-- The three dispatchers panic when no type name can be derived from the message. -/
theorem InProcBus.panic_without_name (b : InProcBus) (ctx : Option Value) (msg : Msg) (p : Panic)
    (hname : msgName msg = .error p) :
    (b.Dispatch msg).result = .error p ∧ (b.Dispatch msg).calls = [] ∧
    (b.DispatchCtx ctx msg).result = .error p ∧ (b.DispatchCtx ctx msg).calls = [] ∧
    (b.Publish msg).result = .error p ∧ (b.Publish msg).calls = [] := by
  simp [InProcBus.Dispatch, InProcBus.DispatchCtx, InProcBus.Publish, hname]

/-- What `callHandler` returns is nil, `ErrHandlerNotFound` for the nil entry, or the first
result of the one invocation made. -/
theorem InProcBus.callHandler_result (b : InProcBus) (handler : HandlerFunc)
    (params : List (Option Value)) (r : GoError)
    (h : (b.callHandler handler params).result = .ok r) :
    r = none ∨ (r = some ErrHandlerNotFound ∧ handler = none) ∨
      ReturnedBy (b.callHandler handler params).calls handler r := by
  cases handler with
  | none =>
    simp only [InProcBus.callHandler, Except.ok.injEq] at h
    exact Or.inr (Or.inl ⟨h.symm, rfl⟩)
  | some hd =>
    rcases reflect.call_outcome (some hd) params with ⟨p, -, hc⟩ | ⟨h', f, args, hl, hb, -, hc⟩
    · simp [InProcBus.callHandler, hc] at h
    · rcases hc with ⟨c, -, hc⟩ | ⟨rs, hf, hc⟩
      · simp [InProcBus.callHandler, hc] at h
      · simp only [InProcBus.callHandler, hc] at h ⊢
        obtain ⟨rest, hrest⟩ := firstAsError_ok rs r h
        exact Or.inr (Or.inr ⟨h', f, args, rest, hl, hb, by simp, by rw [hf, hrest]⟩)

/-- An error that the loop of `Publish` stops with is the first result of a listener it
invoked. -/
theorem InProcBus.callListeners_result (params : List (Option Value)) (S : List HandlerFunc)
    (r : GoError) (h : (InProcBus.callListeners params S).2 = some (.ok r)) :
    ∃ l ∈ S, ReturnedBy (InProcBus.callListeners params S).1 l r := by
  induction S with
  | nil => simp [InProcBus.callListeners] at h
  | cons l S ih =>
    rcases reflect.call_outcome l params with ⟨p, -, hc⟩ | ⟨h', f, args, hl, hb, -, hc⟩
    · simp [InProcBus.callListeners, hc] at h
    · rcases hc with ⟨c, -, hc⟩ | ⟨rs, hf, hc⟩
      · simp [InProcBus.callListeners, hc] at h
      · simp only [InProcBus.callListeners, hc] at h ⊢
        rcases hfe : firstAsError rs with p | _ | e
        · simp [hfe] at h
        · simp only [hfe] at h ⊢
          obtain ⟨l', hl', h'', f', args', rest, e1, e2, e3, e4⟩ := ih h
          exact ⟨l', List.mem_cons_of_mem _ hl', h'', f', args', rest, e1, e2,
            List.mem_append_right _ e3, e4⟩
        · simp only [hfe, Option.some.injEq, Except.ok.injEq] at h ⊢
          obtain ⟨rest, hrest⟩ := firstAsError_ok rs (some e) hfe
          subst h
          exact ⟨l, List.mem_cons_self _ _, h', f, args, rest, hl, hb, by simp,
            by rw [hf, hrest]⟩


/-- C11, as amended. The dispatchers do not complete for every message value: for the nil
message and for a message whose type has no element type (a value that is no pointer, slice,
array, map or channel) `Dispatch`, `DispatchCtx` and `Publish` panic in the derivation of the
type name.  Whenever they do return, the result is nil, or `ErrHandlerNotFound` with no
handler under the type name (`Dispatch` and `DispatchCtx`), or the first result that the body
of the invoked handler, or of an invoked listener, returned. -/
theorem results_are_nil_notFound_or_returned (b : InProcBus) (ctx : Option Value) (msg : Msg) :
    (∀ p, msgName msg = .error p →
      (b.Dispatch msg).result = .error p ∧ (b.DispatchCtx ctx msg).result = .error p ∧
      (b.Publish msg).result = .error p) ∧
    (∀ n r, msgName msg = .ok n → (b.Dispatch msg).result = .ok r →
      r = none ∨ (r = some ErrHandlerNotFound ∧ (b.handlers n).getD none = none) ∨
      ReturnedBy (b.Dispatch msg).calls ((b.handlers n).getD none) r) ∧
    (∀ n r, msgName msg = .ok n → (b.DispatchCtx ctx msg).result = .ok r →
      r = none ∨ (r = some ErrHandlerNotFound ∧ (b.handlers n).getD none = none) ∨
      ReturnedBy (b.DispatchCtx ctx msg).calls ((b.handlers n).getD none) r) ∧
    (∀ n r, msgName msg = .ok n → (b.Publish msg).result = .ok r →
      r = none ∨ ∃ l ∈ (b.listeners n).getD [] ++ b.wildcardListeners,
        ReturnedBy (b.Publish msg).calls l r) := by
  refine ⟨fun p hp => ?_, fun n r hn hr => ?_, fun n r hn hr => ?_, fun n r hn hr => ?_⟩
  · have h := InProcBus.panic_without_name b ctx msg p hp
    exact ⟨h.1, h.2.2.1, h.2.2.2.2.1⟩
  · rw [(InProcBus.dispatch_eq_callHandler b ctx msg n hn).1] at hr ⊢
    exact InProcBus.callHandler_result b _ _ r hr
  · rw [(InProcBus.dispatch_eq_callHandler b ctx msg n hn).2] at hr ⊢
    exact InProcBus.callHandler_result b _ _ r hr
  · cases msg with
    | none => simp [msgName, reflect.Elem, reflect.TypeOf, Except.map] at hn
    | some m =>
      rw [InProcBus.publish_eq b m n hn] at hr ⊢
      simp only at hr ⊢
      rcases hc : (InProcBus.callListeners [some m]
          ((b.listeners n).getD [] ++ b.wildcardListeners)).2 with _ | res
      · rw [hc] at hr
        simp only [Option.getD_none, Except.ok.injEq] at hr
        exact Or.inl hr.symm
      · rw [hc] at hr
        simp only [Option.getD_some] at hr
        rw [hr] at hc
        exact Or.inr (InProcBus.callListeners_result _ _ r hc)

/-- Witness of C11 as amended: the error that `Dispatch` returns is the one the registered
handler returned. -/
theorem results_are_nil_notFound_or_returned_witness :
    some errBoom = none ∨
    (some errBoom = some ErrHandlerNotFound ∧
      (((New.AddHandler (some (createUser 10 (some errBoom)))).bus.handlers
        "CreateUserCmd").getD none) = none) ∨
    ReturnedBy ((New.AddHandler (some (createUser 10 (some errBoom)))).bus.Dispatch
        (some aCreateUserCmd)).calls
      (((New.AddHandler (some (createUser 10 (some errBoom)))).bus.handlers
        "CreateUserCmd").getD none) (some errBoom) :=
  (results_are_nil_notFound_or_returned (New.AddHandler (some (createUser 10 (some errBoom)))).bus
    none (some aCreateUserCmd)).2.1 "CreateUserCmd" (some errBoom) rfl rfl

/-- Counterexample to C11: with a handler for `CreateUserCmd` registered, a `CreateUserCmd`
passed by value makes `Dispatch`, `DispatchCtx` and `Publish` panic in `Elem`, and the nil
message makes them panic on the nil `reflect.Type`; none of them completes with a result. -/
theorem dispatch_by_value_panics :
    ((New.AddHandler (some (createUser 10 none))).bus.Dispatch
      (some createUserCmdByValue)).result = .error .elemOfInvalidType ∧
    ((New.AddHandler (some (createUser 10 none))).bus.DispatchCtx (some background)
      (some createUserCmdByValue)).result = .error .elemOfInvalidType ∧
    ((New.AddHandler (some (createUser 10 none))).bus.Publish
      (some createUserCmdByValue)).result = .error .elemOfInvalidType ∧
    ((New.AddHandler (some (createUser 10 none))).bus.Dispatch none).result
      = .error .nilType ∧
    ((New.AddHandler (some (createUser 10 none))).bus.Publish none).result
      = .error .nilType :=
  ⟨rfl, rfl, rfl, rfl, rfl⟩

/-- The invocations the reflective call makes with the one argument `m` are invocations of
the function called, on `m`. -/
theorem reflect.call_calls (l : HandlerFunc) (m : Value) :
    ∀ c ∈ (reflect.Call l [some m]).1, ∃ h, l = some h ∧ c = ⟨h.id, [m]⟩ := by
  intro c hc
  rcases reflect.call_outcome l [some m] with ⟨p, -, he⟩ | ⟨h, f, args, hl, -, hv, he⟩
  · simp [he] at hc
  · have hargs : args = [m] := by
      simp only [reflect.validArgs, Option.map_some', Option.some.injEq] at hv
      exact hv.symm
    subst hargs
    rcases he with ⟨_, -, he⟩ | ⟨_, -, he⟩
    · simp only [he, List.mem_singleton] at hc
      exact ⟨h, hl, hc⟩
    · simp only [he, List.mem_singleton] at hc
      exact ⟨h, hl, hc⟩

/-- The invocations the loop of `Publish` makes are invocations of listeners of its list, on
the message. -/
theorem InProcBus.callListeners_calls (m : Value) (S : List HandlerFunc) :
    ∀ c ∈ (InProcBus.callListeners [some m] S).1, ∃ h, some h ∈ S ∧ c = ⟨h.id, [m]⟩ := by
  induction S with
  | nil => simp [InProcBus.callListeners]
  | cons l S ih =>
    intro c hc
    have hl := reflect.call_calls l m
    simp only [InProcBus.callListeners] at hc
    rcases hcall : reflect.Call l [some m] with ⟨calls, p | ret⟩
    · rw [hcall] at hc hl
      obtain ⟨h, rfl, rfl⟩ := hl c hc
      exact ⟨h, List.mem_cons_self _ _, rfl⟩
    · rw [hcall] at hc hl
      simp only at hc hl
      rcases hfe : firstAsError ret with p | _ | e
      · rw [hfe] at hc
        obtain ⟨h, rfl, rfl⟩ := hl c hc
        exact ⟨h, List.mem_cons_self _ _, rfl⟩
      · rw [hfe] at hc
        simp only [List.mem_append] at hc
        rcases hc with hc | hc
        · obtain ⟨h, rfl, rfl⟩ := hl c hc
          exact ⟨h, List.mem_cons_self _ _, rfl⟩
        · obtain ⟨h, hh, rfl⟩ := ih c hc
          exact ⟨h, List.mem_cons_of_mem _ hh, rfl⟩
      · rw [hfe] at hc
        obtain ⟨h, rfl, rfl⟩ := hl c hc
        exact ⟨h, List.mem_cons_self _ _, rfl⟩

/-- C12. Let `m` be a message of event type name `E`.  On every bus, each invocation that
`Publish(m)` makes is one of a listener standing under the name `E` or of a wildcard
listener, on `m`, and a function `X` that is neither is not invoked.  After any sequence
`rs` of registrations on a new bus these are the listeners registered with
`AddEventListener` under exactly the name `E`, and those registered with
`AddWildcardListener`: a listener registered under another name is not invoked.  And a
wildcard listener `W` is reached, whether or not `E` has listeners of its own: when the
listeners of `E` and the wildcard listeners registered before `W` return nil on `m`,
`Publish(m)` invokes them in order and then `W`. -/
theorem publish_invokes_only_listeners_of_type (b : InProcBus) (rs : List Registration)
    (m : Value) (E : String) (hname : msgName (some m) = .ok E) :
    (∀ c ∈ (b.Publish (some m)).calls,
      ∃ h, (some h ∈ (b.listeners E).getD [] ∨ some h ∈ b.wildcardListeners) ∧
        c = ⟨h.id, [m]⟩) ∧
    (∀ X : Handler,
      (∀ h, some h ∈ (b.listeners E).getD [] ∨ some h ∈ b.wildcardListeners → h.id ≠ X.id) →
      ∀ c ∈ (b.Publish (some m)).calls, c.fn ≠ X.id) ∧
    (∀ c ∈ ((New.registerAll rs).Publish (some m)).calls,
      ∃ h, (some h ∈ listenersFor E rs ∨ some h ∈ wildcardsOf rs) ∧ c = ⟨h.id, [m]⟩) ∧
    (∀ X : Handler,
      (∀ h, some h ∈ listenersFor E rs ∨ some h ∈ wildcardsOf rs → h.id ≠ X.id) →
      ∀ c ∈ ((New.registerAll rs).Publish (some m)).calls, c.fn ≠ X.id) ∧
    (∀ (Ls before : List Handler) (W : Handler) (after : List HandlerFunc) (r : GoError),
      listenersFor E rs = Ls.map some →
      wildcardsOf rs = before.map some ++ some W :: after →
      (∀ h ∈ Ls ++ before, Returns (some h) m none) → Returns (some W) m r →
      ∃ more, ((New.registerAll rs).Publish (some m)).calls
        = (Ls ++ before ++ [W]).map (fun h => ⟨h.id, [m]⟩) ++ more) := by
  have hS : ((New.registerAll rs).listeners E).getD [] ++ (New.registerAll rs).wildcardListeners
      = listenersFor E rs ++ wildcardsOf rs := by
    rw [InProcBus.registerAll_listeners, InProcBus.registerAll_wildcards]
    simp [New, GoMap.empty]
  have hany : ∀ c ∈ (b.Publish (some m)).calls,
      ∃ h, (some h ∈ (b.listeners E).getD [] ∨ some h ∈ b.wildcardListeners) ∧
        c = ⟨h.id, [m]⟩ := by
    intro c hc
    rw [InProcBus.publish_eq _ m E hname] at hc
    obtain ⟨h, hh, rfl⟩ := InProcBus.callListeners_calls m _ c hc
    exact ⟨h, List.mem_append.1 hh, rfl⟩
  have honly : ∀ c ∈ ((New.registerAll rs).Publish (some m)).calls,
      ∃ h, (some h ∈ listenersFor E rs ∨ some h ∈ wildcardsOf rs) ∧ c = ⟨h.id, [m]⟩ := by
    intro c hc
    rw [InProcBus.publish_eq _ m E hname, hS] at hc
    obtain ⟨h, hh, rfl⟩ := InProcBus.callListeners_calls m _ c hc
    exact ⟨h, List.mem_append.1 hh, rfl⟩
  refine ⟨hany, fun X hX c hc => ?_, honly, fun X hX c hc => ?_, ?_⟩
  · obtain ⟨h, hh, rfl⟩ := hany c hc
    exact hX h hh
  · obtain ⟨h, hh, rfl⟩ := honly c hc
    exact hX h hh
  · intro Ls before W after r hLs hWs hnil hW
    have hall : ∀ l ∈ (Ls ++ before).map some, Returns l m none := by
      intro l hl
      obtain ⟨h, hh, rfl⟩ := List.mem_map.1 hl
      exact hnil h hh
    have hsplit : listenersFor E rs ++ wildcardsOf rs
        = (Ls ++ before).map some ++ some W :: after := by
      rw [hLs, hWs, List.map_append, List.append_assoc]
    rw [InProcBus.publish_eq _ m E hname, hS, hsplit,
      InProcBus.callListeners_nil_then m _ _ hall, filterMap_invocationOf]
    rcases r with _ | e
    · rw [InProcBus.callListeners_cons_nil m (some W) after hW]
      exact ⟨(InProcBus.callListeners [some m] after).1, by simp [invocationOf]⟩
    · rw [InProcBus.callListeners_cons_error m (some W) after e hW]
      exact ⟨[], by simp [invocationOf]⟩

/-- Witness of C12: on a bus with a command handler, a listener of `UserCreated` and a
listener registered for `CreateUserCmd`, but no wildcard listener, a `UserCreated` event
invokes the listener of `UserCreated` alone; with a wildcard listener registered as well,
it reaches that one too. -/
theorem publish_invokes_only_listeners_of_type_witness :
    (∀ c ∈ ((New.registerAll commandAndListeners).Publish (some aUserCreated)).calls,
      ∃ h, (some h ∈ listenersFor "UserCreated" commandAndListeners ∨
        some h ∈ wildcardsOf commandAndListeners) ∧ c = ⟨h.id, [aUserCreated]⟩) ∧
    ((New.registerAll commandAndListeners).Publish (some aUserCreated)).calls
      = [⟨1, [aUserCreated]⟩] ∧
    (∃ more, ((New.registerAll mixedRegistrations).Publish (some aUserCreated)).calls
      = [⟨1, [aUserCreated]⟩, ⟨3, [aUserCreated]⟩] ++ more) :=
  ⟨(publish_invokes_only_listeners_of_type New commandAndListeners aUserCreated "UserCreated"
      rfl).2.2.1, rfl,
    (publish_invokes_only_listeners_of_type New mixedRegistrations aUserCreated "UserCreated"
      rfl).2.2.2.2 [onUserCreated 1 none] [] (onAnything 3 none) [] none rfl rfl
      (fun h hh => by
        simp only [List.append_nil, List.mem_singleton] at hh
        subst hh
        exact ⟨_, _, rfl, rfl, rfl⟩)
      ⟨_, _, rfl, rfl, rfl⟩⟩

/-- C13. The routing key is the name of the element type of the message's type.  For two
messages whose types have element types of the same name (whatever the contents of the
messages, the packages of the two types and their fields), `Dispatch` and `DispatchCtx` go on
with the entry that the single-handler table holds under that one name, and `Publish` walks
the listener sequence under that one name, then the wildcard listeners.  The key that
`AddHandler` derives from a function whose first parameter has an element type of that name
is this same key, and the function is stored under it. -/
theorem routing_key_is_type_name (b : InProcBus) (ctx : Option Value) (m1 m2 : Value)
    (E1 E2 : GoType) (h1 : m1.typ.Elem = some E1) (h2 : m2.typ.Elem = some E2)
    (hname : E1.Name = E2.Name) :
    msgName (some m1) = .ok E1.Name ∧ msgName (some m2) = .ok E1.Name ∧
    b.Dispatch (some m1) = b.callHandler ((b.handlers E1.Name).getD none) [some m1] ∧
    b.Dispatch (some m2) = b.callHandler ((b.handlers E1.Name).getD none) [some m2] ∧
    b.DispatchCtx ctx (some m1) = b.callHandler ((b.handlers E1.Name).getD none) [ctx, some m1] ∧
    b.DispatchCtx ctx (some m2) = b.callHandler ((b.handlers E1.Name).getD none) [ctx, some m2] ∧
    b.Publish (some m1) =
      ⟨b, (InProcBus.callListeners [some m1]
          ((b.listeners E1.Name).getD [] ++ b.wildcardListeners)).1,
        ((InProcBus.callListeners [some m1]
          ((b.listeners E1.Name).getD [] ++ b.wildcardListeners)).2).getD (.ok none)⟩ ∧
    b.Publish (some m2) =
      ⟨b, (InProcBus.callListeners [some m2]
          ((b.listeners E1.Name).getD [] ++ b.wildcardListeners)).1,
        ((InProcBus.callListeners [some m2]
          ((b.listeners E1.Name).getD [] ++ b.wildcardListeners)).2).getD (.ok none)⟩ ∧
    (∀ (H : Handler) (ins outs : List GoType) (v : Bool) (P E : GoType),
      H.typ.signature = some (ins, outs, v) → ins[0]? = some P → P.Elem = some E →
      E.Name = E1.Name →
        handlerKey (some H) 0 = msgName (some m1) ∧
        (b.AddHandler (some H)).bus.handlers E1.Name = some (some H)) := by
  have hn1 := msgName_of_elem m1 E1 h1
  have hn2 : msgName (some m2) = .ok E1.Name := by rw [hname]; exact msgName_of_elem m2 E2 h2
  refine ⟨hn1, hn2, (InProcBus.dispatch_eq_callHandler b ctx _ _ hn1).1,
    (InProcBus.dispatch_eq_callHandler b ctx _ _ hn2).1,
    (InProcBus.dispatch_eq_callHandler b ctx _ _ hn1).2,
    (InProcBus.dispatch_eq_callHandler b ctx _ _ hn2).2,
    InProcBus.publish_eq b m1 _ hn1, InProcBus.publish_eq b m2 _ hn2, ?_⟩
  intro H ins outs v P E hsig hin hP hE
  have hkey := handlerKey_of_elem H 0 ins outs v P E hsig hin hP
  rw [hE] at hkey
  exact ⟨by rw [hkey, hn1], by simp [InProcBus.AddHandler, hkey, GoMap.set]⟩

/-- Witness of C13: a `CreateUserCmd` and a `CreateUserCmd` of another package, with other
fields, have the same key, and `Dispatch` of the second goes on with the handler registered
for the first. -/
theorem routing_key_is_type_name_witness :
    msgName (some aCreateUserCmd) = .ok "CreateUserCmd" ∧
    msgName (some aLegacyCreateUserCmd) = .ok "CreateUserCmd" ∧
    (New.AddHandler (some (createUser 10 none))).bus.Dispatch (some aLegacyCreateUserCmd) =
      (New.AddHandler (some (createUser 10 none))).bus.callHandler
        (some (createUser 10 none)) [some aLegacyCreateUserCmd] :=
  ⟨(routing_key_is_type_name (New.AddHandler (some (createUser 10 none))).bus none
      aCreateUserCmd aLegacyCreateUserCmd createUserCmd legacyCreateUserCmd rfl rfl rfl).1,
    (routing_key_is_type_name (New.AddHandler (some (createUser 10 none))).bus none
      aCreateUserCmd aLegacyCreateUserCmd createUserCmd legacyCreateUserCmd rfl rfl rfl).2.1,
    (routing_key_is_type_name (New.AddHandler (some (createUser 10 none))).bus none
      aCreateUserCmd aLegacyCreateUserCmd createUserCmd legacyCreateUserCmd rfl rfl rfl).2.2.2.1⟩

/-- The listener sequence that `AddEventListener` leaves under the derived key. -/
theorem InProcBus.addEventListener_listeners (b : InProcBus) (handler : HandlerFunc) (E : GoType)
    (hkey : keyElem handler 0 = some E) :
    (b.AddEventListener handler).bus.listeners E.Name
      = some ((b.listeners E.Name).getD [] ++ [handler]) := by
  have hk := (handlerKey_eq handler 0).1 E hkey
  simp only [InProcBus.AddEventListener, hk]
  cases hl : b.listeners E.Name <;> simp [GoMap.set, hl]

/-- C14, as amended. On every bus, for every handler `h` from which the key `E` is derived,
`AddEventListener(h)` makes the listener sequence of `E` the previous sequence (empty when `E`
had no entry) followed by `h`, and leaves the sequences of the other names as they were; a
second `AddEventListener(h)` appends `h` once more, and when the listeners registered before
`h` and `h` itself return nil on a message of type name `E`, `Publish` then invokes them in
order and `h` twice.  `AddWildcardListener(g)` makes the wildcard sequence the previous one
followed by `g`, for any `g`, the nil handler included, and derives no type: it never
fails and leaves the listener table as it was. -/
theorem addEventListener_appends (b : InProcBus) :
    (∀ (h : HandlerFunc) (E : GoType), keyElem h 0 = some E →
      (b.AddEventListener h).result = .ok () ∧
      (b.AddEventListener h).bus.listeners E.Name
        = some ((b.listeners E.Name).getD [] ++ [h]) ∧
      (∀ k, k ≠ E.Name → (b.AddEventListener h).bus.listeners k = b.listeners k) ∧
      (b.AddEventListener h).bus.wildcardListeners = b.wildcardListeners ∧
      ((b.AddEventListener h).bus.AddEventListener h).bus.listeners E.Name
        = some ((b.listeners E.Name).getD [] ++ [h, h]) ∧
      (∀ (H : Handler) (m : Value), h = some H → msgName (some m) = .ok E.Name →
        (∀ l ∈ (b.listeners E.Name).getD [], Returns l m none) → Returns (some H) m none →
        ∃ more, (((b.AddEventListener h).bus.AddEventListener h).bus.Publish (some m)).calls
          = ((b.listeners E.Name).getD []).filterMap (invocationOf m)
            ++ [⟨H.id, [m]⟩, ⟨H.id, [m]⟩] ++ more)) ∧
    (∀ g : HandlerFunc, (b.AddWildcardListener g).result = .ok () ∧
      (b.AddWildcardListener g).bus.wildcardListeners = b.wildcardListeners ++ [g] ∧
      (b.AddWildcardListener g).bus.listeners = b.listeners) := by
  refine ⟨fun h E hkey => ?_, fun g => ⟨rfl, rfl, rfl⟩⟩
  have hk := (handlerKey_eq h 0).1 E hkey
  have hone := InProcBus.addEventListener_listeners b h E hkey
  have htwo : ((b.AddEventListener h).bus.AddEventListener h).bus.listeners E.Name
      = some ((b.listeners E.Name).getD [] ++ [h, h]) := by
    rw [InProcBus.addEventListener_listeners (b.AddEventListener h).bus h E hkey, hone]
    simp
  refine ⟨by simp [InProcBus.AddEventListener, hk], hone, fun k hne => ?_, ?_, htwo,
    fun H m hH hname hold hret => ?_⟩
  · simp only [InProcBus.AddEventListener, hk]
    cases hl : b.listeners E.Name <;> simp [GoMap.set, hl, hne]
  · simp only [InProcBus.AddEventListener, hk]
    cases hl : b.listeners E.Name <;> simp [hl]
  · subst hH
    rw [InProcBus.publish_eq _ m _ hname, htwo]
    simp only [Option.getD_some, List.append_assoc]
    rw [InProcBus.callListeners_nil_then m _ _ hold, List.cons_append,
      InProcBus.callListeners_cons_nil m (some H) _ hret, List.cons_append,
      InProcBus.callListeners_cons_nil m (some H) _ hret]
    exact ⟨(InProcBus.callListeners [some m]
      ((b.AddEventListener (some H)).bus.AddEventListener (some H)).bus.wildcardListeners).1,
      by simp [invocationOf]⟩

/-- Witness of C14 as amended: a listener of `UserCreated` that returns an error is appended
like any other, also behind a listener that is a nil function; and a listener that returns
nil, registered twice on a new bus, is invoked twice. -/
theorem addEventListener_appends_witness :
    ((New.AddEventListener (some createUserNilFunc)).bus.AddEventListener
      (some (createUser 2 (some errBoom)))).bus.listeners "CreateUserCmd"
      = some (((New.AddEventListener (some createUserNilFunc)).bus.listeners
          "CreateUserCmd").getD [] ++ [some (createUser 2 (some errBoom))]) ∧
    (∃ more, (((New.AddEventListener (some (onUserCreated 1 none))).bus.AddEventListener
      (some (onUserCreated 1 none))).bus.Publish (some aUserCreated)).calls
      = ((New.listeners "UserCreated").getD []).filterMap (invocationOf aUserCreated)
        ++ [⟨1, [aUserCreated]⟩, ⟨1, [aUserCreated]⟩] ++ more) :=
  ⟨((addEventListener_appends (New.AddEventListener (some createUserNilFunc)).bus).1
      (some (createUser 2 (some errBoom))) createUserCmd rfl).2.1,
    ((addEventListener_appends New).1 (some (onUserCreated 1 none)) userCreated
      rfl).2.2.2.2.2 (onUserCreated 1 none) aUserCreated rfl rfl
      (fun l hl => absurd hl (List.not_mem_nil l)) ⟨_, _, rfl, rfl, rfl⟩⟩

/-- Counterexample to C14: a listener that returns an error, registered twice, stands twice
in the sequence, and `Publish` invokes it once: the first invocation ends `Publish`. -/
theorem failing_listener_registered_twice_runs_once :
    ((New.AddEventListener (some (onUserCreated 2 (some errBoom)))).bus.AddEventListener
      (some (onUserCreated 2 (some errBoom)))).bus.listeners "UserCreated"
      = some [some (onUserCreated 2 (some errBoom)), some (onUserCreated 2 (some errBoom))] ∧
    (((New.AddEventListener (some (onUserCreated 2 (some errBoom)))).bus.AddEventListener
      (some (onUserCreated 2 (some errBoom)))).bus.Publish (some aUserCreated)).calls
      = [⟨2, [aUserCreated]⟩] ∧
    (((New.AddEventListener (some (onUserCreated 2 (some errBoom)))).bus.AddEventListener
      (some (onUserCreated 2 (some errBoom)))).bus.Publish (some aUserCreated)).result
      = .ok (some errBoom) :=
  ⟨rfl, rfl, rfl⟩

/-- C15. The methods `AddHandler` and `AddCtxHandler` write the same table: for a function `H`
of shape `func(P) error` and a function `Hc` of shape `func(C, P) error`, the entry under the
type name is `Hc` after `AddHandler(H)` and `AddCtxHandler(Hc)`, and `H` after the two calls
in the other order.  With `Hc` stored, `Dispatch` of a message of type `P` does not return
`ErrHandlerNotFound`: it calls `Hc` with the message alone, and the call panics for too few
arguments before the body of `Hc` runs. -/
theorem handlers_share_one_table (b : InProcBus) (H Hc : Handler) (C E : GoType)
    (f : List Value → Returned) (m : Value)
    (hshape : H.typ.signature = some ([m.typ], [errorType], false))
    (hshapeC : Hc.typ.signature = some ([C, m.typ], [errorType], false))
    (helem : m.typ.Elem = some E) (hbody : Hc.body = some f) :
    ((b.AddHandler (some H)).bus.AddCtxHandler (some Hc)).bus.handlers E.Name
      = some (some Hc) ∧
    ((b.AddCtxHandler (some Hc)).bus.AddHandler (some H)).bus.handlers E.Name
      = some (some H) ∧
    (((b.AddHandler (some H)).bus.AddCtxHandler (some Hc)).bus.Dispatch (some m)).result
      = .error .callTooFewArguments ∧
    (((b.AddHandler (some H)).bus.AddCtxHandler (some Hc)).bus.Dispatch (some m)).calls = [] ∧
    (((b.AddHandler (some H)).bus.AddCtxHandler (some Hc)).bus.Dispatch (some m)).result
      ≠ .ok (some ErrHandlerNotFound) := by
  have hk := handlerKey_of_elem H 0 [m.typ] [errorType] false m.typ E hshape rfl helem
  have hkC := handlerKey_of_elem Hc 1 [C, m.typ] [errorType] false m.typ E hshapeC rfl helem
  have hstored : ((b.AddHandler (some H)).bus.AddCtxHandler (some Hc)).bus.handlers E.Name
      = some (some Hc) := by
    simp [InProcBus.AddHandler, InProcBus.AddCtxHandler, hk, hkC, GoMap.set]
  have hcall : reflect.Call (some Hc) [some m] = ([], .error .callTooFewArguments) := by
    simp [reflect.Call, hshapeC, hbody]
  have hd := (InProcBus.dispatch_eq_callHandler
    ((b.AddHandler (some H)).bus.AddCtxHandler (some Hc)).bus none (some m) E.Name
    (msgName_of_elem m E helem)).1
  rw [hstored] at hd
  refine ⟨hstored, ?_, ?_, ?_, ?_⟩
  · simp [InProcBus.AddHandler, InProcBus.AddCtxHandler, hk, hkC, GoMap.set]
  · rw [hd]
    simp [InProcBus.callHandler, hcall]
  · rw [hd]
    simp [InProcBus.callHandler, hcall]
  · rw [hd]
    simp [InProcBus.callHandler, hcall]

/-- Witness of C15: `CreateUser` replaced by its context-aware variant. -/
theorem handlers_share_one_table_witness :
    ((New.AddHandler (some (createUser 10 none))).bus.AddCtxHandler
      (some (createUserCtx 12 none))).bus.handlers "CreateUserCmd"
      = some (some (createUserCtx 12 none)) ∧
    (((New.AddHandler (some (createUser 10 none))).bus.AddCtxHandler
      (some (createUserCtx 12 none))).bus.Dispatch (some aCreateUserCmd)).result
      = .error .callTooFewArguments :=
  ⟨(handlers_share_one_table New (createUser 10 none) (createUserCtx 12 none) contextType
      createUserCmd (fun _ => .results [none]) aCreateUserCmd rfl rfl rfl rfl).1,
    (handlers_share_one_table New (createUser 10 none) (createUserCtx 12 none) contextType
      createUserCmd (fun _ => .results [none]) aCreateUserCmd rfl rfl rfl rfl).2.2.1⟩

/-- The reflective call of a non-nil function of one parameter, to which the argument may be
assigned, runs the body on the argument. -/
theorem reflect.call_of_shape (h : Handler) (P : GoType) (outs : List GoType)
    (f : List Value → Returned) (m : Value)
    (hshape : h.typ.signature = some ([P], outs, false)) (hbody : h.body = some f)
    (hassign : m.typ.AssignableTo P = true) :
    reflect.Call (some h) [some m] =
      match f [m] with
      | .panics c => ([⟨h.id, [m]⟩], .error (.inHandler c))
      | .results rs => ([⟨h.id, [m]⟩], .ok rs) := by
  simp only [reflect.Call, hshape, hbody, reflect.validArgs]
  simp [reflect.fixedAssignable, hassign]

/-- The loop of `Publish` over well-shaped listeners ends in no panic but a handler's. -/
theorem InProcBus.callListeners_wellShaped (m : Value) (S : List HandlerFunc)
    (hS : ∀ l ∈ S, WellShaped m.typ l) :
    ∀ p, (InProcBus.callListeners [some m] S).2 = some (.error p) → p.fromHandler = true := by
  induction S with
  | nil => simp [InProcBus.callListeners]
  | cons l S ih =>
    intro p hp
    obtain ⟨h, f, rfl, hshape, hbody, htyped⟩ := hS l (List.mem_cons_self _ _)
    have hcall := reflect.call_of_shape h m.typ [errorType] f m hshape hbody
      (GoType.assignableTo_self _)
    simp only [InProcBus.callListeners, hcall] at hp
    rcases hf : f [m] with rs | c
    · obtain ⟨r, rfl, hr⟩ := htyped f hbody [m] rs hf
      rw [hf] at hp
      simp only [firstAsError_of_error r [] hr] at hp
      cases r with
      | none => exact ih (fun l hl => hS l (List.mem_cons_of_mem _ hl)) p hp
      | some e => simp at hp
    · rw [hf] at hp
      simp only [Option.some.injEq, Except.error.injEq] at hp
      rw [← hp]
      rfl

/-- C16, as amended. Let the message `m` be a pointer to `T`.  On every bus whose entry under
the name of `T` is a non-nil function of shape `func(*T) error`, whatever listeners the bus
has, `Dispatch(m)` reaches none of its own abort branches: it invokes that function once, on
`m`, and ends in a result or in a panic that the body of the function raised.  On every bus
whose listeners under the name of `T` and whose wildcard listeners are all non-nil functions
of that shape, whatever handlers the bus has, `Publish(m)` ends in a result or in a panic
that the body of a listener raised. -/
theorem wellShaped_never_aborts (b : InProcBus) (T : GoType) (m : Value)
    (hm : m.typ = .pointer T) :
    (∀ h : Handler, b.handlers T.Name = some (some h) → WellShaped (.pointer T) (some h) →
      (b.Dispatch (some m)).calls = [⟨h.id, [m]⟩] ∧
      ((∃ r, (b.Dispatch (some m)).result = .ok r) ∨
        ∃ c, (b.Dispatch (some m)).result = .error (.inHandler c)) ∧
      ∀ p, (b.Dispatch (some m)).result = .error p → p.fromHandler = true) ∧
    ((∀ x ∈ (b.listeners T.Name).getD [] ++ b.wildcardListeners, WellShaped (.pointer T) x) →
      ((∃ r, (b.Publish (some m)).result = .ok r) ∨
        ∃ c, (b.Publish (some m)).result = .error (.inHandler c)) ∧
      ∀ p, (b.Publish (some m)).result = .error p → p.fromHandler = true) := by
  have hname : msgName (some m) = .ok T.Name :=
    msgName_of_elem m T (by rw [hm]; rfl)
  have hcases : ∀ res : Except Panic GoError,
      (∀ p, res = .error p → p.fromHandler = true) →
      ((∃ r, res = .ok r) ∨ ∃ c, res = .error (.inHandler c)) := by
    intro res hres
    rcases res with p | r
    · have hp := hres p rfl
      cases p <;> first | exact Or.inr ⟨_, rfl⟩ | exact absurd hp (by decide)
    · exact Or.inl ⟨r, rfl⟩
  rw [← hm]
  constructor
  · intro h hstored hl
    obtain ⟨h', f, hh, hshape, hbody, htyped⟩ := hl
    cases hh
    have hd := InProcBus.dispatch_found b h m.typ [errorType] f m T.Name hname hstored hshape
      hbody (GoType.assignableTo_self _)
    have hno : ∀ p, (b.Dispatch (some m)).result = .error p → p.fromHandler = true := by
      intro p hp
      rw [hd] at hp
      rcases hf : f [m] with rs | c
      · obtain ⟨r, rfl, hr⟩ := htyped f hbody [m] rs hf
        rw [hf] at hp
        simp [firstAsError_of_error r [] hr] at hp
      · rw [hf] at hp
        simp only [Except.error.injEq] at hp
        rw [← hp]
        rfl
    refine ⟨?_, hcases _ hno, hno⟩
    rw [hd]
    cases f [m] <;> rfl
  · intro hlisteners
    have hno : ∀ p, (b.Publish (some m)).result = .error p → p.fromHandler = true := by
      intro p hp
      rw [InProcBus.publish_eq b m T.Name hname] at hp
      simp only at hp
      rcases hc : (InProcBus.callListeners [some m]
          ((b.listeners T.Name).getD [] ++ b.wildcardListeners)).2 with _ | res
      · rw [hc] at hp
        simp at hp
      · rw [hc] at hp
        simp only [Option.getD_some] at hp
        rw [hp] at hc
        exact InProcBus.callListeners_wellShaped m _ hlisteners p hc
    exact ⟨hcases _ hno, hno⟩

/-- The handlers `createUser` are well-shaped for pointers to `CreateUserCmd`. -/
theorem createUser_wellShaped (id : Nat) :
    WellShaped (.pointer createUserCmd) (some (createUser id none)) :=
  ⟨createUser id none, fun _ => .results [none], rfl, rfl, rfl, fun f hf args rs h => by
    cases hf
    cases h
    exact ⟨none, rfl, fun e he => by cases he⟩⟩

/-- Witness of C16 as amended: `Dispatch` on a bus whose wildcard listeners are a
`func(msg interface{}) error` and the nil handler, and `Publish` on a bus whose listener and
wildcard listener for `CreateUserCmd` have the shape `func(cmd *CreateUserCmd) error`. -/
theorem wellShaped_never_aborts_witness :
    (busWithWildcards.Dispatch (some aCreateUserCmd)).calls = [⟨10, [aCreateUserCmd]⟩] ∧
    (∀ p, (busWithWildcards.Dispatch (some aCreateUserCmd)).result = .error p
      → p.fromHandler = true) ∧
    (∀ p, (createUserBus.Publish (some aCreateUserCmd)).result = .error p
      → p.fromHandler = true) :=
  ⟨((wellShaped_never_aborts busWithWildcards createUserCmd aCreateUserCmd rfl).1
      (createUser 10 none) rfl (createUser_wellShaped 10)).1,
    ((wellShaped_never_aborts busWithWildcards createUserCmd aCreateUserCmd rfl).1
      (createUser 10 none) rfl (createUser_wellShaped 10)).2.2,
    ((wellShaped_never_aborts createUserBus createUserCmd aCreateUserCmd rfl).2
      (fun x hx => by
        have hx' : x ∈ [some (createUser 11 none), some (createUser 12 none)] := hx
        simp only [List.mem_cons, List.mem_singleton, List.not_mem_nil, or_false] at hx'
        rcases hx' with rfl | rfl
        · exact createUser_wellShaped 11
        · exact createUser_wellShaped 12)).2⟩

/-- Counterexample to C16: a nil function of type `func(cmd *CreateUserCmd) error` is
accepted by `AddHandler` and by `AddEventListener`; `Dispatch` and `Publish` of a pointer to
a `CreateUserCmd` then panic in the reflective call. -/
theorem nil_function_handler_panics :
    (New.AddHandler (some createUserNilFunc)).result = .ok () ∧
    ((New.AddHandler (some createUserNilFunc)).bus.Dispatch (some aCreateUserCmd)).result
      = .error .callOfNilFunc ∧
    (New.AddEventListener (some createUserNilFunc)).result = .ok () ∧
    ((New.AddEventListener (some createUserNilFunc)).bus.Publish (some aCreateUserCmd)).result
      = .error .callOfNilFunc :=
  ⟨rfl, rfl, rfl, rfl⟩


/-- The invocations and the result of `callHandler` do not depend on the bus. -/
theorem InProcBus.callHandler_congr (b b' : InProcBus) (handler : HandlerFunc)
    (params : List (Option Value)) :
    (b.callHandler handler params).calls = (b'.callHandler handler params).calls ∧
    (b.callHandler handler params).result = (b'.callHandler handler params).result := by
  cases handler with
  | none => exact ⟨rfl, rfl⟩
  | some h =>
    simp only [InProcBus.callHandler]
    rcases reflect.Call (some h) params with ⟨calls, p | ret⟩ <;> exact ⟨rfl, rfl⟩

/-- Two buses with the same entry under the type name of a message dispatch it alike. -/
theorem InProcBus.dispatch_congr (b b' : InProcBus) (ctx : Option Value) (msg : Msg)
    (h : ∀ n, msgName msg = .ok n → b.handlers n = b'.handlers n) :
    (b.Dispatch msg).calls = (b'.Dispatch msg).calls ∧
    (b.Dispatch msg).result = (b'.Dispatch msg).result ∧
    (b.DispatchCtx ctx msg).calls = (b'.DispatchCtx ctx msg).calls ∧
    (b.DispatchCtx ctx msg).result = (b'.DispatchCtx ctx msg).result := by
  rcases hn : msgName msg with p | n
  · have h1 := InProcBus.panic_without_name b ctx msg p hn
    have h2 := InProcBus.panic_without_name b' ctx msg p hn
    exact ⟨by rw [h1.2.1, h2.2.1], by rw [h1.1, h2.1], by rw [h1.2.2.2.1, h2.2.2.2.1],
      by rw [h1.2.2.1, h2.2.2.1]⟩
  · have h1 := InProcBus.dispatch_eq_callHandler b ctx msg n hn
    have h2 := InProcBus.dispatch_eq_callHandler b' ctx msg n hn
    rw [h1.1, h1.2, h2.1, h2.2, h n hn]
    exact ⟨(InProcBus.callHandler_congr b b' _ _).1, (InProcBus.callHandler_congr b b' _ _).2,
      (InProcBus.callHandler_congr b b' _ _).1, (InProcBus.callHandler_congr b b' _ _).2⟩

/-- Two buses with the same listeners publish alike. -/
theorem InProcBus.publish_congr (b b' : InProcBus) (msg : Msg)
    (hl : b.listeners = b'.listeners) (hw : b.wildcardListeners = b'.wildcardListeners) :
    (b.Publish msg).calls = (b'.Publish msg).calls ∧
    (b.Publish msg).result = (b'.Publish msg).result := by
  simp only [InProcBus.Publish, hl, hw]
  rcases msgName msg with p | n
  · exact ⟨rfl, rfl⟩
  · simp only
    rcases InProcBus.callListeners [reflect.ValueOf msg] ((b'.listeners n).getD [])
      with ⟨calls, _ | r⟩
    · simp only
      rcases InProcBus.callListeners [reflect.ValueOf msg] b'.wildcardListeners
        with ⟨more, _ | r⟩ <;> exact ⟨rfl, rfl⟩
    · exact ⟨rfl, rfl⟩

/-- What a registration in the single-handler table, reading the parameter at position `i`,
leaves as it was. -/
theorem InProcBus.set_handler_frame (b : InProcBus) (handler : HandlerFunc) (i : Nat) :
    (∀ k, handlerKey handler i ≠ .ok k →
      (match handlerKey handler i with
        | .error _ => b
        | .ok name => { b with handlers := b.handlers.set name handler }).handlers k
        = b.handlers k) ∧
    (match handlerKey handler i with
      | .error _ => b
      | .ok name => { b with handlers := b.handlers.set name handler }).listeners
      = b.listeners ∧
    (match handlerKey handler i with
      | .error _ => b
      | .ok name => { b with handlers := b.handlers.set name handler }).wildcardListeners
      = b.wildcardListeners := by
  rcases handlerKey handler i with p | name
  · exact ⟨fun _ _ => rfl, rfl, rfl⟩
  · refine ⟨fun k hk => ?_, rfl, rfl⟩
    have : k ≠ name := fun h => hk (by rw [h])
    simp [GoMap.set, this]

/-- The bus that `AddHandler` and `AddCtxHandler` leave behind. -/
theorem InProcBus.addHandler_bus (b : InProcBus) (handler : HandlerFunc) :
    (b.AddHandler handler).bus =
      (match handlerKey handler 0 with
        | .error _ => b
        | .ok name => { b with handlers := b.handlers.set name handler }) ∧
    (b.AddCtxHandler handler).bus =
      (match handlerKey handler 1 with
        | .error _ => b
        | .ok name => { b with handlers := b.handlers.set name handler }) := by
  simp only [InProcBus.AddHandler, InProcBus.AddCtxHandler]
  constructor
  · cases handlerKey handler 0 <;> rfl
  · cases handlerKey handler 1 <;> rfl

/-- C17. The methods `AddHandler(h)` and `AddCtxHandler(h)` change at most the entry of the
single-handler table under the key derived from `h`: the entry under every other key, the
listener table and the wildcard sequence are as before, so that `Dispatch` and `DispatchCtx`
of a message with another type name, and `Publish` of any message, make the same invocations
and end in the same result as before.  The methods `AddEventListener` and
`AddWildcardListener` leave the single-handler table as it was. -/
theorem registration_changes_one_entry (b : InProcBus) (handler : HandlerFunc)
    (ctx : Option Value) (msg : Msg) :
    ((∀ k, handlerKey handler 0 ≠ .ok k →
        (b.AddHandler handler).bus.handlers k = b.handlers k) ∧
      (b.AddHandler handler).bus.listeners = b.listeners ∧
      (b.AddHandler handler).bus.wildcardListeners = b.wildcardListeners ∧
      (msgName msg ≠ handlerKey handler 0 →
        ((b.AddHandler handler).bus.Dispatch msg).calls = (b.Dispatch msg).calls ∧
        ((b.AddHandler handler).bus.Dispatch msg).result = (b.Dispatch msg).result ∧
        ((b.AddHandler handler).bus.DispatchCtx ctx msg).calls = (b.DispatchCtx ctx msg).calls ∧
        ((b.AddHandler handler).bus.DispatchCtx ctx msg).result
          = (b.DispatchCtx ctx msg).result) ∧
      ((b.AddHandler handler).bus.Publish msg).calls = (b.Publish msg).calls ∧
      ((b.AddHandler handler).bus.Publish msg).result = (b.Publish msg).result) ∧
    ((∀ k, handlerKey handler 1 ≠ .ok k →
        (b.AddCtxHandler handler).bus.handlers k = b.handlers k) ∧
      (b.AddCtxHandler handler).bus.listeners = b.listeners ∧
      (b.AddCtxHandler handler).bus.wildcardListeners = b.wildcardListeners ∧
      (msgName msg ≠ handlerKey handler 1 →
        ((b.AddCtxHandler handler).bus.Dispatch msg).calls = (b.Dispatch msg).calls ∧
        ((b.AddCtxHandler handler).bus.Dispatch msg).result = (b.Dispatch msg).result ∧
        ((b.AddCtxHandler handler).bus.DispatchCtx ctx msg).calls
          = (b.DispatchCtx ctx msg).calls ∧
        ((b.AddCtxHandler handler).bus.DispatchCtx ctx msg).result
          = (b.DispatchCtx ctx msg).result) ∧
      ((b.AddCtxHandler handler).bus.Publish msg).calls = (b.Publish msg).calls ∧
      ((b.AddCtxHandler handler).bus.Publish msg).result = (b.Publish msg).result) ∧
    (b.AddEventListener handler).bus.handlers = b.handlers ∧
    (b.AddWildcardListener handler).bus.handlers = b.handlers := by
  have h0 := InProcBus.set_handler_frame b handler 0
  have h1 := InProcBus.set_handler_frame b handler 1
  rw [← (InProcBus.addHandler_bus b handler).1] at h0
  rw [← (InProcBus.addHandler_bus b handler).2] at h1
  refine ⟨⟨h0.1, h0.2.1, h0.2.2, fun hne => ?_, InProcBus.publish_congr _ _ msg h0.2.1 h0.2.2⟩,
    ⟨h1.1, h1.2.1, h1.2.2, fun hne => ?_, InProcBus.publish_congr _ _ msg h1.2.1 h1.2.2⟩,
    ?_, rfl⟩
  · exact InProcBus.dispatch_congr _ _ ctx msg
      fun n hn => h0.1 n (fun hk => hne (by rw [hn, hk]))
  · exact InProcBus.dispatch_congr _ _ ctx msg
      fun n hn => h1.1 n (fun hk => hne (by rw [hn, hk]))
  · simp only [InProcBus.AddEventListener]
    rcases handlerKey handler 0 with p | name
    · rfl
    · cases hl : b.listeners name <;> simp [hl]

/-- Witness of C17: registering a handler for `CreateUserCmd` leaves the entry under
`UserCreated` and the dispatch of a `UserCreated` message as they were. -/
theorem registration_changes_one_entry_witness :
    (createUserBus.AddHandler (some (createUser 13 (some errBoom)))).bus.handlers "UserCreated"
      = createUserBus.handlers "UserCreated" ∧
    ((createUserBus.AddHandler (some (createUser 13 (some errBoom)))).bus.Dispatch
      (some aUserCreated)).result = (createUserBus.Dispatch (some aUserCreated)).result ∧
    ((createUserBus.AddHandler (some (createUser 13 (some errBoom)))).bus.Publish
      (some aCreateUserCmd)).calls = (createUserBus.Publish (some aCreateUserCmd)).calls :=
  ⟨(registration_changes_one_entry createUserBus (some (createUser 13 (some errBoom))) none
      (some aUserCreated)).1.1 "UserCreated"
      (fun h => by
        have h' : (Except.ok "CreateUserCmd" : Except Panic String) = .ok "UserCreated" := h
        injection h' with h''
        exact absurd h'' (by decide)),
    ((registration_changes_one_entry createUserBus (some (createUser 13 (some errBoom))) none
      (some aUserCreated)).1.2.2.2.1
      (fun h => by
        have h' : (Except.ok "UserCreated" : Except Panic String) = .ok "CreateUserCmd" := h
        injection h' with h''
        exact absurd h'' (by decide))).2.1,
    (registration_changes_one_entry createUserBus (some (createUser 13 (some errBoom))) none
      (some aCreateUserCmd)).1.2.2.2.2.1⟩

end Bus
